import Mathlib

/-! EasingCurve: a shallow embedding of `easing_curve.cpp`.

The program reads a curve configuration, validates it (`ValidInput`), stores it in an
`EasingCurve` object (`SetValues`) and then evaluates the curve at query times (`Calculate`).

Conventions of the embedding.

* The members and expressions of type `double` are rational numbers: every finite double is
  rational, and the arithmetic on them is taken to be exact (no rounding).
* What `std::stod` returns is a `Double`: a finite value, an infinity or NaN. The
  comparisons of a NaN are false, as in C++.
* A C++ `int` is an `Int`.  Integer division `/` truncates toward zero (`Int.tdiv`), and the
  conversion of a `double` to `int` truncates toward zero (`toInt`).
* `std::stod` and `std::stoi` are library functions.  They are a parameter of the
  development (`StdLib`): a conversion returns `none` where the library function throws.
  `decimal` is a concrete instance for decimal numerals and the NaN and infinity spellings.
* Member functions of the class are state transformers on the record `EasingCurve`.
-/

namespace Easing

/-! ## Library conversions -/

/-- A value `std::stod` can return: a finite number, NaN, or an infinity with its sign. -/
inductive Double where
  /-- A finite value. -/
  | finite (q : ℚ)
  /-- The value NaN, which `stod` returns for the spelling `nan`. -/
  | nan
  /-- An infinity, negative when the flag is true; `stod` returns it for `inf`. -/
  | inf (negative : Bool)
deriving DecidableEq

/-- The comparison `x < y` of C++ between a value `stod` returned and a finite `double`:
false for NaN. -/
def Double.less (x : Double) (y : ℚ) : Bool :=
  match x with
  | .finite q => decide (q < y)
  | .nan => false
  | .inf negative => negative

/-- The comparison `x > y` of C++ between a value `stod` returned and a finite `double`:
false for NaN. -/
def Double.greater (x : Double) (y : ℚ) : Bool :=
  match x with
  | .finite q => decide (q > y)
  | .nan => false
  | .inf negative => !negative

/-- The two `<string>` conversions the program calls. `none` stands for a thrown
`std::invalid_argument` or `std::out_of_range`. -/
structure StdLib where
  /-- Models `std::stod`. -/
  stod : String → Option Double
  /-- Models `std::stoi`. -/
  stoi : String → Option Int

/-- Conversion of a `double` to `int`: the fractional part is discarded (truncation toward
zero). Used for `static_cast<int>(x)` and for the implicit conversion in `result = x`. -/
def toInt (x : ℚ) : Int :=
  if 0 ≤ x then ⌊x⌋ else ⌈x⌉

/-- Conversion of a `double` to `char`, as performed for the second argument of the
`std::string(count, ch)` constructor: the truncated value, taken as a character code. -/
def toChar (x : ℚ) : Char :=
  Char.ofNat (toInt x).toNat

/-- The call `pow(x, n)` with an `int` exponent. -/
def pow (x : ℚ) (n : Int) : ℚ :=
  x ^ n

/-! ## Global functions -/

/-- Function `ValidDbl` (lines 92-110): true when `stod` converts the string, false when it
throws. -/
def ValidDbl (L : StdLib) (s : String) : Bool :=
  match L.stod s with
  | some _ => true
  | none => false

/-- Function `ValidInt` (lines 111-136): the ceil-floor check on `stod(s)`; false when
`stod` throws. For NaN and the infinities `ceil(x) - floor(x)` is NaN and the comparison
with 0.0001 is false. -/
def ValidInt (L : StdLib) (s : String) : Bool :=
  match L.stod s with
  | some (.finite x) =>
    if |((⌈x⌉ : Int) : ℚ) - ((⌊x⌋ : Int) : ℚ)| < 1 / 10000 then true else false
  | some _ => false
  | none => false


/-! ## A concrete instance of the library conversions: decimal numerals -/

/-- Whitespace as `isspace` sees it in the C locale: space and the codes 9 to 13. -/
def isSpace (c : Char) : Bool :=
  c.toNat = 32 || (9 ≤ c.toNat && c.toNat ≤ 13)

/-- Drops the leading whitespace, as `strtol` and `strtod` do. -/
def skipSpace : List Char → List Char
  | [] => []
  | c :: cs => if isSpace c then skipSpace cs else c :: cs

/-- Reads an optional sign: the flag is true for a minus sign. -/
def splitSign : List Char → Bool × List Char
  | [] => (false, [])
  | c :: cs => if c = '-' then (true, cs) else if c = '+' then (false, cs) else (false, c :: cs)

/-- Value of a run of decimal digits, most significant digit first. -/
def digitsValue (acc : Nat) : List Char → Nat
  | [] => acc
  | c :: cs => digitsValue (acc * 10 + (c.toNat - 48)) cs

/-- Applies a sign flag to a magnitude. -/
def withSign (neg : Bool) (n : Int) : Int :=
  if neg then -n else n

/-- The decimal exponent part `e[sign]digits` at the head of the rest of a numeral; zero
when there is none or when it has no digit. -/
def exponentPart : List Char → Int
  | [] => 0
  | c :: cs =>
    if c = 'e' || c = 'E' then
      let sd := splitSign cs
      let ds := sd.2.takeWhile Char.isDigit
      if ds.isEmpty then 0 else withSign sd.1 (digitsValue 0 ds)
    else 0

/-- Function `std::stoi` in base ten: whitespace, an optional sign, then the longest run of digits;
what follows is ignored. It throws when there is no digit (`invalid_argument`) and when the
value does not fit a 32-bit `int` (`out_of_range`). -/
def decimalStoi (s : String) : Option Int :=
  let sd := splitSign (skipSpace s.data)
  let ds := sd.2.takeWhile Char.isDigit
  if ds.isEmpty then none
  else
    let v := withSign sd.1 (digitsValue 0 ds)
    if -2147483648 ≤ v ∧ v ≤ 2147483647 then some v else none

/-- The shape of a decimal numeral as `strtod` reads it. -/
structure Numeral where
  /-- True when the numeral starts with a minus sign. -/
  neg : Bool
  /-- Value of the digits of the integer and fraction parts, read as one natural number. -/
  digits : Nat
  /-- Number of digits after the radix point. -/
  scale : Nat
  /-- The decimal exponent, zero when absent. -/
  expo : Int
deriving DecidableEq

/-- The scanning part of `strtod` on decimal numerals: whitespace, an optional sign, digits
with an optional radix point, an optional exponent; what follows is ignored. There is no
numeral when no digit is found. -/
def scanNumeral (s : String) : Option Numeral :=
  let sd := splitSign (skipSpace s.data)
  let ip := sd.2.takeWhile Char.isDigit
  let r1 := sd.2.dropWhile Char.isDigit
  let fp := match r1 with
    | [] => []
    | c :: t => if c = '.' then t.takeWhile Char.isDigit else []
  let r2 := match r1 with
    | [] => []
    | c :: t => if c = '.' then t.dropWhile Char.isDigit else c :: t
  if ip.isEmpty && fp.isEmpty then none
  else some ⟨sd.1, digitsValue 0 (ip ++ fp), fp.length, exponentPart r2⟩

/-- The number a decimal numeral denotes. -/
def Numeral.value (n : Numeral) : ℚ :=
  let v : ℚ := (n.digits : ℚ) / 10 ^ n.scale * 10 ^ n.expo
  if n.neg then -v else v

/-- True when the characters start with the given lower-case word, whatever their case. -/
def startsLike : List Char → List Char → Bool
  | [], _ => true
  | _ :: _, [] => false
  | w :: ws, c :: cs => c.toLower == w && startsLike ws cs

/-- The NaN and infinity spellings as `strtod` reads them: whitespace, an optional sign,
then `nan` or `inf` in any case; what follows is ignored. -/
def scanSpecial (s : String) : Option Double :=
  let sd := splitSign (skipSpace s.data)
  if startsLike ['n', 'a', 'n'] sd.2 then some .nan
  else if startsLike ['i', 'n', 'f'] sd.2 then some (.inf sd.1)
  else none

/-- Function `std::stod` on decimal numerals and on the NaN and infinity spellings. It
throws (`invalid_argument`) when it finds neither. The hexadecimal spellings and the range
errors of `strtod` are outside this instance. -/
def decimalStod (s : String) : Option Double :=
  match scanSpecial s with
  | some d => some d
  | none => (scanNumeral s).map fun n => .finite n.value

/-- The conversions on decimal numerals and the NaN and infinity spellings. -/
def decimal : StdLib where
  stod := decimalStod
  stoi := decimalStoi

/-! ## Input validation -/

/-- The nine messages `ValidInput` can print before it returns false. -/
inductive Rejection where
  /-- Prints "There are not four valid elements. Please try again:" -/
  | WrongFieldCount
  /-- Prints "Curve type is invalid, must be" and the four curve names. -/
  | UnknownCurveKind
  /-- Prints "Lower bound is not an integer. Please try again:" -/
  | LowerNotInteger
  /-- Prints "Lower bound must not be negative. Please try again:" -/
  | LowerNegative
  /-- Prints "Upper bound is not an integer. Please try again:" -/
  | UpperNotInteger
  /-- Prints "Upper bound must not be negative. Please try again:" -/
  | UpperNegative
  /-- Prints "Upper bound must be greater than Lower bound. Please try again:" -/
  | UpperNotGreaterThanLower
  /-- Prints "Duration value is not a double. Please try again:" -/
  | DurationNotNumeric
  /-- Prints "Duration must be greater than 0. Please try again:" -/
  | DurationNotPositive
deriving DecidableEq

/-- How a call of `ValidInput` ends. -/
inductive Outcome where
  /-- It returns true and prints nothing. -/
  | accepted
  /-- It prints the message and returns false. -/
  | rejected (r : Rejection)
  /-- A call of `stoi` outside a `try` block throws: the exception leaves `ValidInput`. -/
  | uncaught
deriving DecidableEq

/-- Function `ValidInput` (lines 137-216). The checks run in the order of the source and the
first one that fails decides the outcome. `stoi` is called outside any `try` block. -/
def ValidInput (L : StdLib) (v : List String) : Outcome :=
  match v with
  | [v0, v1, v2, v3] =>
    if v0 ≠ "Linear" ∧ v0 ≠ "InQuad" ∧ v0 ≠ "OutQuad" ∧ v0 ≠ "InOutQuad" then
      .rejected .UnknownCurveKind
    else if !ValidInt L v1 then .rejected .LowerNotInteger
    else
      match L.stoi v1 with
      | none => .uncaught
      | some lo =>
        if lo < 0 then .rejected .LowerNegative
        else if !ValidInt L v2 then .rejected .UpperNotInteger
        else
          match L.stoi v2 with
          | none => .uncaught
          | some up =>
            if up < 0 then .rejected .UpperNegative
            else if up ≤ lo then .rejected .UpperNotGreaterThanLower
            else if !ValidDbl L v3 then .rejected .DurationNotNumeric
            else
              match L.stoi v3 with
              | none => .uncaught
              | some d => if d ≤ 0 then .rejected .DurationNotPositive else .accepted
  | _ => .rejected .WrongFieldCount

/-! ## The class -/

/-- The data members of `class EasingCurve` (lines 329-358). -/
structure EasingCurve where
  lower : Int
  upper : Int
  diff : Int
  mid : Int
  order : Int
  dur : ℚ
  factor : ℚ
  curve_type : String
  result : Int
  time : ℚ

/-- An object whose members are all zero or empty. `main` declares `EasingCurve EC;` without
initialising it, so the members hold arbitrary values before `SetValues`; this is one such
object. -/
def blank : EasingCurve :=
  ⟨0, 0, 0, 0, 0, 0, 0, "", 0, 0⟩

namespace EasingCurve

/-- Method `EasingCurve::SetValues` (lines 365-379). `none` when `v` has fewer than four
elements or when a conversion throws, and also when the duration converts to NaN or an
infinity: the member `dur` of the object model holds finite values only. -/
def SetValues (L : StdLib) (ec : EasingCurve) (v : List String) : Option EasingCurve :=
  match v with
  | v0 :: v1 :: v2 :: v3 :: _ =>
    match L.stoi v1, L.stoi v2, L.stod v3 with
    | some lo, some up, some (.finite d) =>
      some { ec with
        curve_type := v0, lower := lo, upper := up, dur := d,
        diff := up - lo, mid := lo + (up - lo).tdiv 2 }
    | _, _, _ => none
  | _ => none

/-- The expression `lower + diff * pow(time / dur, order)` of lines 457 and 479, a `double`. -/
def easeIn (ec : EasingCurve) : ℚ :=
  ec.lower + ec.diff * pow (ec.time / ec.dur) ec.order

/-- The expression `upper - diff * pow(1 - time / dur, order)` of line 489, a `double`. -/
def easeOut (ec : EasingCurve) : ℚ :=
  ec.upper - ec.diff * pow (1 - ec.time / ec.dur) ec.order

/-- The expression `lower + diff * pow(2 * time / dur, order)` of line 504, a `double`. -/
def leftSegment (ec : EasingCurve) : ℚ :=
  ec.lower + ec.diff * pow (2 * ec.time / ec.dur) ec.order

/-- The expression `upper - diff * pow(1 - (time - dur / 2) / (dur*dur / 2), order)` of
line 507, a `double`. -/
def rightSegment (ec : EasingCurve) : ℚ :=
  ec.upper - ec.diff * pow (1 - (ec.time - ec.dur / 2) / (ec.dur * ec.dur / 2)) ec.order

/-- Method `EasingCurve::Linear` (lines 449-470). The string `StringInt` is four copies of the
character `temp` converts to. Both branches of the check on it convert `temp` to `int`
and store it in `result`: `result = temp` in the first, `result = static_cast<int>(temp)`
in the second (which also writes an empty line to the console, no member of the object).
The local `temp2` is never read. -/
def Linear (L : StdLib) (ec : EasingCurve) : EasingCurve :=
  let ec := { ec with order := 1 }
  let temp : ℚ := easeIn ec
  let StringInt : String := String.mk (List.replicate 4 (toChar temp))
  if ValidInt L StringInt then
    { ec with result := toInt temp }
  else
    { ec with result := toInt temp }

/-- Method `EasingCurve::InQuad` (lines 471-480). -/
def InQuad (ec : EasingCurve) : EasingCurve :=
  let ec := { ec with order := 2 }
  { ec with result := toInt (easeIn ec) }

/-- Method `EasingCurve::OutQuad` (lines 481-490). -/
def OutQuad (ec : EasingCurve) : EasingCurve :=
  let ec := { ec with order := 2 }
  { ec with result := toInt (easeOut ec) }

/-- The two assignments that open `EasingCurve::InOutQuad` (lines 500-501). -/
def halve (ec : EasingCurve) : EasingCurve :=
  { ec with diff := ec.mid - ec.lower, order := 2 }

/-- Method `EasingCurve::InOutQuad` (lines 491-512). -/
def InOutQuad (ec : EasingCurve) : EasingCurve :=
  let ec := halve ec
  if ec.time ≤ ec.dur / 2 then
    { ec with result := toInt (leftSegment ec) }
  else if ec.time ≥ ec.dur / 2 then
    { ec with result := toInt (rightSegment ec) }
  else
    { ec with result := ec.mid }

/-- Method `EasingCurve::Calculate` (lines 416-447): the object after the call and the returned
`result`. -/
def Calculate (L : StdLib) (ec : EasingCurve) : EasingCurve × Int :=
  let ec :=
    if ec.curve_type = "Linear" then Linear L ec
    else if ec.curve_type = "InQuad" then InQuad ec
    else if ec.curve_type = "OutQuad" then OutQuad ec
    else if ec.curve_type = "InOutQuad" then InOutQuad ec
    else ec
  (ec, ec.result)

/-- One pass of the loop of `main` (lines 566-576) with an accepted time `t`: the time is
stored in the object and `Calculate` is called. -/
def query (L : StdLib) (ec : EasingCurve) (t : ℚ) : EasingCurve × Int :=
  Calculate L { ec with time := t }

end EasingCurve

/-- The body of `main` after a field list `v` has been accepted, for one query time: a
fresh object, `SetValues`, then one pass of the loop. The value printed, `none` when
`SetValues` fails. -/
def session (L : StdLib) (v : List String) (t : ℚ) : Option Int :=
  (EasingCurve.SetValues L blank v).map fun ec => (ec.query L t).2

/-! ## Reading the configuration line: `UserInputEC` -/

/-- The loop `while (getline(iss, entry, ',')) entries.push_back(entry)` of lines 288-290 on
the characters of the line. A call of `getline` extracts the characters up to the next comma
and drops the comma; it succeeds when it meets a comma or extracts at least one character,
and fails at the end of the line with nothing extracted. So a comma closes an entry, and
what follows the last comma is an entry only when it is not empty. -/
def entriesOf : List Char → List (List Char)
  | [] => []
  | c :: cs =>
    if c = ',' then [] :: entriesOf cs
    else
      match entriesOf cs with
      | [] => [[c]]
      | e :: es => (c :: e) :: es

/-- The loop over the characters of one entry at lines 296-307; `found` is the flag
`EqualsFound` and the value is what the loop appends to `temp`. -/
def afterEquals (found : Bool) : List Char → List Char
  | [] => []
  | c :: cs =>
    if c = '=' then afterEquals true cs
    else if found then c :: afterEquals found cs
    else afterEquals found cs

/-- The vector `Inputs` built from one line at lines 284-309. `none` when `entries` is empty:
`entries[0]` is then an access out of bounds. -/
def tokenize (line : String) : Option (List String) :=
  match entriesOf line.data with
  | [] => none
  | e :: es => some (String.mk e :: es.map fun x => String.mk (afterEquals false x))

/-- How one pass of the loop of `UserInputEC` ends. -/
inductive PassResult where
  /-- The pass returns the vector `Inputs`: `ValidInput` accepted it. -/
  | accepted (v : List String)
  /-- The pass ends with a message of `ValidInput`; the loop reads the next line. -/
  | rejected (r : Rejection)
  /-- An exception of `stoi` leaves `ValidInput` and `UserInputEC`: nothing catches it. -/
  | uncaught
  /-- The access `entries[0]` is out of bounds. -/
  | outOfBounds
deriving DecidableEq

/-- One pass of the loop of `UserInputEC` (lines 277-320) on the line read. -/
def UserInputECPass (L : StdLib) (line : String) : PassResult :=
  match tokenize line with
  | none => .outOfBounds
  | some v =>
    match ValidInput L v with
    | .accepted => .accepted v
    | .rejected r => .rejected r
    | .uncaught => .uncaught

/-- Function `UserInputEC` (lines 218-321) on the lines still to be read from the console: the
loop goes on while the passes end in a rejection. At the end of the input `getline` leaves
`UserInput` empty, as for an empty line. -/
def UserInputEC (L : StdLib) : List String → PassResult
  | [] => UserInputECPass L ""
  | line :: rest =>
    match UserInputECPass L line with
    | .rejected _ => UserInputEC L rest
    | r => r

/-! ## Reading a query time: `UserInputTime` -/

/-- How one pass of the loop of `UserInputTime` ends. -/
inductive TimeResult where
  /-- The pass returns `stod(UserTime)`. -/
  | accepted (t : Double)
  /-- Prints "Time entered must be a number". -/
  | NotNumeric
  /-- Prints "Time must be between 0 and" followed by the duration. -/
  | OutOfRange
deriving DecidableEq

namespace EasingCurve

/-- One pass of the loop of `EasingCurve::UserInputTime` (lines 398-413) on the line read.
The test of line 407 is `stod(UserTime) < 0 || stod(UserTime) > dur`. (The case `none`
after `ValidDbl` is not reached: `ValidDbl` has converted the same string.) -/
def UserInputTimePass (L : StdLib) (ec : EasingCurve) (line : String) : TimeResult :=
  if !ValidDbl L line then .NotNumeric
  else
    match L.stod line with
    | none => .NotNumeric
    | some t => if t.less 0 || t.greater ec.dur then .OutOfRange else .accepted t

/-- Method `EasingCurve::UserInputTime` (lines 381-414) on the lines still to be read: the
value returned and the lines left. `none` when the input ends before a line is accepted
(the loop then never returns). -/
def UserInputTime (L : StdLib) (ec : EasingCurve) :
    List String → Option (Double × List String)
  | [] => none
  | line :: rest =>
    match UserInputTimePass L ec line with
    | .accepted t => some (t, rest)
    | _ => UserInputTime L ec rest

/-- The loop of `main` (lines 566-576) for a sequence of accepted times: each time is stored
in `time` and `Calculate` is called on the same object. The object after the last call and
the values printed. -/
def queries (L : StdLib) (ec : EasingCurve) : List ℚ → EasingCurve × List Int
  | [] => (ec, [])
  | t :: ts =>
    let r := ec.query L t
    let rest := queries L r.1 ts
    (rest.1, r.2 :: rest.2)

end EasingCurve

/-! ## The tokenizer as the specification words it -/

/-- Follows the specification, section 4.2 ("split on `,` into raw tokens"), with the
amendment that an empty piece after the last comma is no token. -/
def dropEmptyLast : List (List Char) → List (List Char)
  | [] => []
  | [p] => if p = [] then [] else [p]
  | p :: q :: ps => p :: dropEmptyLast (q :: ps)

/-- Follows the specification, section 4.2: the raw tokens of a line. -/
def commaTokens (cs : List Char) : List (List Char) :=
  dropEmptyLast (cs.splitOn ',')

/-- Follows the specification, section 4.2 ("everything up to and including its first `=`
discarded, and everything after is kept"; the empty string without `=`), with the amendment
that the `=` signs after the first are dropped as well. -/
def valueText (tok : List Char) : List Char :=
  ((tok.dropWhile fun c => c != '=').drop 1).filter fun c => c != '='

/-- Follows the specification, section 4.2: the first token verbatim, then the value text of
each later token. -/
def specFields (line : String) : List String :=
  match commaTokens line.data with
  | [] => []
  | first :: rest => String.mk first :: rest.map fun tok => String.mk (valueText tok)

/-- Number of fields the tokenizer makes of a line with `k` commas: a comma at the very end
of the line opens no field. -/
def fieldCount (cs : List Char) : Nat :=
  cs.count ',' + (match cs.getLast? with
    | none => 0
    | some c => if c = ',' then 0 else 1)

/-! ## Objects of the examples -/

/-- The object `SetValues` builds for the bounds 100 and 200 and the duration 1 of the
header examples. -/
def example100 (k : String) : EasingCurve :=
  { blank with curve_type := k, lower := 100, upper := 200, dur := 1, diff := 100, mid := 150 }

/-- The object `SetValues` builds for the bounds 100 and 200 and the duration 2, kind
InOutQuad. -/
def example100slow : EasingCurve :=
  { blank with
    curve_type := "InOutQuad", lower := 100, upper := 200, dur := 2, diff := 100, mid := 150 }

/-- The object `SetValues` builds for the bounds 0 and 1 and the duration 1, kind
InOutQuad: the midpoint `0 + 1 / 2` is 0. -/
def example01 : EasingCurve :=
  { blank with
    curve_type := "InOutQuad", lower := 0, upper := 1, dur := 1, diff := 1, mid := 0 }

/-- The object `SetValues` builds for the bounds 150 and 200 and the duration 1, kind
OutQuad: the right half of the header example of InOutQuad. -/
def example150 : EasingCurve :=
  { blank with
    curve_type := "OutQuad", lower := 150, upper := 200, dur := 1, diff := 50, mid := 175 }

/-- The object `SetValues` builds for the bounds 100 and 200 and the duration 0.25 (spelled
`25e-2`), kind InOutQuad. -/
def exampleQuarter : EasingCurve :=
  { blank with
    curve_type := "InOutQuad", lower := 100, upper := 200, dur := 1 / 4, diff := 100,
    mid := 150 }

/-! ## Objects that evaluate alike -/

/-- Two objects hold the same configuration as far as `Calculate` reads it: the same bounds,
midpoint, duration and kind; the same `diff` unless the kind is InOutQuad (which overwrites
`diff` before reading it); and, for a kind `Calculate` does not know, the same stale
`result`. -/
def sameConfig (e e' : EasingCurve) : Prop :=
  e.lower = e'.lower ∧ e.upper = e'.upper ∧ e.mid = e'.mid ∧ e.dur = e'.dur ∧
    e.curve_type = e'.curve_type ∧
    (e.curve_type = "InOutQuad" ∨ e.diff = e'.diff) ∧
    (e.curve_type ∈ ["Linear", "InQuad", "OutQuad", "InOutQuad"] ∨ e.result = e'.result)

/-! ## Auxiliary facts -/

theorem toInt_intCast (z : Int) : toInt (z : ℚ) = z := by
  unfold toInt
  split <;> simp

theorem toInt_mono {x y : ℚ} (h : x ≤ y) : toInt x ≤ toInt y := by
  unfold toInt
  by_cases hx : 0 ≤ x
  · rw [if_pos hx, if_pos (le_trans hx h)]
    exact Int.floor_mono h
  · rw [if_neg hx]
    by_cases hy : 0 ≤ y
    · rw [if_pos hy]
      have h1 : ⌈x⌉ ≤ 0 := Int.ceil_le.mpr (by push_cast; exact le_of_lt (not_le.mp hx))
      have h2 : 0 ≤ ⌊y⌋ := Int.floor_nonneg.mpr hy
      exact le_trans h1 h2
    · rw [if_neg hy]
      exact Int.ceil_mono h

namespace EasingCurve

theorem SetValues_fields {L : StdLib} {ec0 ec : EasingCurve} {v : List String}
    (h : SetValues L ec0 v = some ec) :
    ec.diff = ec.upper - ec.lower ∧ ec.mid = ec.lower + (ec.upper - ec.lower).tdiv 2 := by
  unfold SetValues at h
  split at h
  · split at h
    · simp only [Option.some.injEq] at h
      subst h
      exact ⟨rfl, rfl⟩
    · exact absurd h (by simp)
  · exact absurd h (by simp)

theorem SetValues_kind {L : StdLib} {ec0 ec : EasingCurve} {k : String} {fs : List String}
    (h : SetValues L ec0 (k :: fs) = some ec) (k' : String) :
    SetValues L ec0 (k' :: fs) = some { ec with curve_type := k' } := by
  unfold SetValues at h ⊢
  split at h
  · rename_i v0 v1 v2 v3 rest heq
    simp only [List.cons.injEq] at heq
    obtain ⟨_, hfs⟩ := heq
    subst hfs
    split at h
    · rename_i lo up d h1 h2 h3
      simp only [Option.some.injEq] at h
      subst h
      simp only [h1, h2, h3]
    · exact absurd h (by simp)
  · exact absurd h (by simp)

theorem query_Linear (L : StdLib) (ec : EasingCurve) (t : ℚ) (hk : ec.curve_type = "Linear") :
    (ec.query L t).2 = toInt (ec.lower + ec.diff * (t / ec.dur)) := by
  simp [query, Calculate, hk, Linear, easeIn, pow]

theorem query_InQuad (L : StdLib) (ec : EasingCurve) (t : ℚ) (hk : ec.curve_type = "InQuad") :
    (ec.query L t).2 = toInt (ec.lower + ec.diff * (t / ec.dur) ^ 2) := by
  simp [query, Calculate, hk, InQuad, easeIn, pow]
  norm_cast

theorem query_OutQuad (L : StdLib) (ec : EasingCurve) (t : ℚ) (hk : ec.curve_type = "OutQuad") :
    (ec.query L t).2 = toInt (ec.upper - ec.diff * (1 - t / ec.dur) ^ 2) := by
  simp [query, Calculate, hk, OutQuad, easeOut, pow]
  norm_cast

theorem query_InOutQuad_left (L : StdLib) (ec : EasingCurve) (t : ℚ)
    (hk : ec.curve_type = "InOutQuad") (ht : t ≤ ec.dur / 2) :
    (ec.query L t).2 = toInt (ec.lower + ((ec.mid : ℚ) - ec.lower) * (2 * t / ec.dur) ^ 2) := by
  simp [query, Calculate, hk, InOutQuad, halve, leftSegment, pow, ht]
  norm_cast

theorem query_InOutQuad_right (L : StdLib) (ec : EasingCurve) (t : ℚ)
    (hk : ec.curve_type = "InOutQuad") (ht : ec.dur / 2 < t) :
    (ec.query L t).2 =
      toInt (ec.upper - ((ec.mid : ℚ) - ec.lower) *
        (1 - (t - ec.dur / 2) / (ec.dur * ec.dur / 2)) ^ 2) := by
  simp [query, Calculate, hk, InOutQuad, halve, rightSegment, pow, not_le.mpr ht, le_of_lt ht]
  norm_cast

end EasingCurve

/-! ## Conversions of the numerals used in the examples -/

theorem decimalStod_of_scan {s : String} {n : Numeral} (hs : scanSpecial s = none)
    (h : scanNumeral s = some n) : decimalStod s = some (.finite n.value) := by
  simp [decimalStod, hs, h]

theorem decimalStod_1 : decimalStod "1" = some (.finite 1) := by
  have h : scanNumeral "1" = some ⟨false, 1, 0, 0⟩ := by decide
  rw [decimalStod_of_scan (by decide) h]
  simp [Numeral.value]

theorem decimalStod_2 : decimalStod "2" = some (.finite 2) := by
  have h : scanNumeral "2" = some ⟨false, 2, 0, 0⟩ := by decide
  rw [decimalStod_of_scan (by decide) h]
  simp [Numeral.value]

theorem decimalStoi_100 : decimalStoi "100" = some 100 := by decide

theorem decimalStoi_200 : decimalStoi "200" = some 200 := by decide

theorem decimalStoi_0 : decimalStoi "0" = some 0 := by decide

theorem decimalStoi_1 : decimalStoi "1" = some 1 := by decide

theorem decimalStoi_neg100 : decimalStoi "-100" = some (-100) := by decide

theorem ValidInt_of_stod_intCast (L : StdLib) (s : String) (z : Int)
    (h : L.stod s = some (.finite (z : ℚ))) : ValidInt L s = true := by
  simp [ValidInt, h]

theorem ValidInt_decimal_100 : ValidInt decimal "100" = true := by
  have h : scanNumeral "100" = some ⟨false, 100, 0, 0⟩ := by decide
  have hd : decimalStod "100" = some (.finite (((100 : Int) : ℚ))) := by
    rw [decimalStod_of_scan (by decide) h]
    simp [Numeral.value]
  exact ValidInt_of_stod_intCast decimal "100" 100 hd

theorem ValidInt_decimal_200 : ValidInt decimal "200" = true := by
  have h : scanNumeral "200" = some ⟨false, 200, 0, 0⟩ := by decide
  have hd : decimalStod "200" = some (.finite (((200 : Int) : ℚ))) := by
    rw [decimalStod_of_scan (by decide) h]
    simp [Numeral.value]
  exact ValidInt_of_stod_intCast decimal "200" 200 hd

theorem ValidInt_decimal_neg100 : ValidInt decimal "-100" = true := by
  have h : scanNumeral "-100" = some ⟨true, 100, 0, 0⟩ := by decide
  have hd : decimalStod "-100" = some (.finite ((((-100) : Int) : ℚ))) := by
    rw [decimalStod_of_scan (by decide) h]
    simp [Numeral.value]
  exact ValidInt_of_stod_intCast decimal "-100" (-100) hd

theorem decimalStod_half : decimalStod "0.5" = some (.finite (1 / 2)) := by
  have h : scanNumeral "0.5" = some ⟨false, 5, 1, 0⟩ := by decide
  rw [decimalStod_of_scan (by decide) h]
  simp [Numeral.value]
  norm_num

theorem decimalStoi_half : decimalStoi "0.5" = some 0 := by decide

theorem unknownKind_iff (k : String) :
    (k ≠ "Linear" ∧ k ≠ "InQuad" ∧ k ≠ "OutQuad" ∧ k ≠ "InOutQuad") ↔
      k ∉ ["Linear", "InQuad", "OutQuad", "InOutQuad"] := by
  simp

theorem SetValues_example100 (k : String) :
    EasingCurve.SetValues decimal blank [k, "100", "200", "1"] = some (example100 k) := by
  simp [EasingCurve.SetValues, decimal, decimalStoi_100, decimalStoi_200, decimalStod_1,
    example100]
  decide

theorem SetValues_example100slow :
    EasingCurve.SetValues decimal blank ["InOutQuad", "100", "200", "2"] =
      some example100slow := by
  simp [EasingCurve.SetValues, decimal, decimalStoi_100, decimalStoi_200, decimalStod_2,
    example100slow]
  decide

theorem SetValues_example01 :
    EasingCurve.SetValues decimal blank ["InOutQuad", "0", "1", "1"] = some example01 := by
  simp [EasingCurve.SetValues, decimal, decimalStoi_0, decimalStoi_1, decimalStod_1,
    example01]
  decide

namespace EasingCurve

/-! ## The closed forms of the three single-segment curves -/

/-- C1: for every configuration `SetValues` stores with `upper > lower >= 0` and
`dur > 0`, and every time with `0 <= t <= dur`, over exact arithmetic: Linear returns the
truncation of `lower + (upper - lower) * (t / dur)`, whatever the conversions `L` make of
the near-integer check inside `Linear` (so on either branch of it); InQuad returns the
truncation of `lower + (upper - lower) * (t / dur)^2`; OutQuad returns the truncation of
`upper - (upper - lower) * (1 - t / dur)^2`. -/
theorem closed_forms (L : StdLib) (ec0 ec : EasingCurve) (v : List String) (t : ℚ)
    (hset : SetValues L ec0 v = some ec)
    (_hlo : 0 ≤ ec.lower) (_hup : ec.lower < ec.upper) (_hd : 0 < ec.dur)
    (_ht0 : 0 ≤ t) (_ht : t ≤ ec.dur) :
    (ec.curve_type = "Linear" → ∀ L' : StdLib,
      (ec.query L' t).2 = toInt (ec.lower + ((ec.upper : ℚ) - ec.lower) * (t / ec.dur))) ∧
    (ec.curve_type = "InQuad" →
      (ec.query L t).2 = toInt (ec.lower + ((ec.upper : ℚ) - ec.lower) * (t / ec.dur) ^ 2)) ∧
    (ec.curve_type = "OutQuad" →
      (ec.query L t).2 = toInt (ec.upper - ((ec.upper : ℚ) - ec.lower) * (1 - t / ec.dur) ^ 2)) := by
  have hdiff : (ec.diff : ℚ) = (ec.upper : ℚ) - ec.lower := by
    rw [(SetValues_fields hset).1]
    push_cast
    rfl
  refine ⟨fun hk L' => ?_, fun hk => ?_, fun hk => ?_⟩
  · rw [query_Linear L' ec t hk, hdiff]
  · rw [query_InQuad L ec t hk, hdiff]
  · rw [query_OutQuad L ec t hk, hdiff]

/-- Witness of C1: bounds 100 and 200, duration 1, at the times 0.2, 0.5 and 1.0. Linear
gives 120, 150, 200; InQuad 104, 125, 200; OutQuad 136, 175, 200. -/
theorem closed_forms_witness :
    (session decimal ["Linear", "100", "200", "1"] (1 / 5) = some 120 ∧
      session decimal ["Linear", "100", "200", "1"] (1 / 2) = some 150 ∧
      session decimal ["Linear", "100", "200", "1"] 1 = some 200) ∧
    (session decimal ["InQuad", "100", "200", "1"] (1 / 5) = some 104 ∧
      session decimal ["InQuad", "100", "200", "1"] (1 / 2) = some 125 ∧
      session decimal ["InQuad", "100", "200", "1"] 1 = some 200) ∧
    (session decimal ["OutQuad", "100", "200", "1"] (1 / 5) = some 136 ∧
      session decimal ["OutQuad", "100", "200", "1"] (1 / 2) = some 175 ∧
      session decimal ["OutQuad", "100", "200", "1"] 1 = some 200) := by
  have key := fun (k : String) (t : ℚ) (h0 : 0 ≤ t) (h1 : t ≤ (example100 k).dur) =>
    closed_forms decimal blank (example100 k) _ t (SetValues_example100 k)
      (by simp [example100]) (by simp [example100]) (by norm_num [example100]) h0 h1
  have hL := fun t h0 h1 => (key "Linear" t h0 h1).1 rfl decimal
  have hI := fun t h0 h1 => (key "InQuad" t h0 h1).2.1 rfl
  have hO := fun t h0 h1 => (key "OutQuad" t h0 h1).2.2 rfl
  simp only [session, SetValues_example100, Option.map_some']
  refine ⟨⟨?_, ?_, ?_⟩, ⟨?_, ?_, ?_⟩, ⟨?_, ?_, ?_⟩⟩
  · rw [hL (1 / 5) (by norm_num) (by norm_num [example100])]; norm_num [example100, toInt]
  · rw [hL (1 / 2) (by norm_num) (by norm_num [example100])]; norm_num [example100, toInt]
  · rw [hL 1 (by norm_num) (by norm_num [example100])]; norm_num [example100, toInt]
  · rw [hI (1 / 5) (by norm_num) (by norm_num [example100])]; norm_num [example100, toInt]
  · rw [hI (1 / 2) (by norm_num) (by norm_num [example100])]; norm_num [example100, toInt]
  · rw [hI 1 (by norm_num) (by norm_num [example100])]; norm_num [example100, toInt]
  · rw [hO (1 / 5) (by norm_num) (by norm_num [example100])]; norm_num [example100, toInt]
  · rw [hO (1 / 2) (by norm_num) (by norm_num [example100])]; norm_num [example100, toInt]
  · rw [hO 1 (by norm_num) (by norm_num [example100])]; norm_num [example100, toInt]

/-! ## Endpoints of the single-segment curves -/

/-- C2: for every configuration `SetValues` stores with `upper > lower >= 0` and
`dur > 0`, of kind Linear, InQuad or OutQuad, the query at time 0 returns exactly `lower`
and the query at time `dur` returns exactly `upper`; the three kinds therefore agree at
both endpoints. -/
theorem endpoints (L : StdLib) (ec0 ec : EasingCurve) (v : List String)
    (hset : SetValues L ec0 v = some ec)
    (_hlo : 0 ≤ ec.lower) (_hup : ec.lower < ec.upper) (hd : 0 < ec.dur)
    (hk : ec.curve_type = "Linear" ∨ ec.curve_type = "InQuad" ∨ ec.curve_type = "OutQuad") :
    (ec.query L 0).2 = ec.lower ∧ (ec.query L ec.dur).2 = ec.upper := by
  have hdiff : (ec.diff : ℚ) = (ec.upper : ℚ) - ec.lower := by
    rw [(SetValues_fields hset).1]
    push_cast
    rfl
  have hone : ec.dur / ec.dur = 1 := div_self (ne_of_gt hd)
  have hup : (ec.lower : ℚ) + ((ec.upper : ℚ) - ec.lower) = ec.upper := by ring
  rcases hk with hk | hk | hk
  · constructor
    · rw [query_Linear L ec 0 hk, zero_div, mul_zero, add_zero, toInt_intCast]
    · rw [query_Linear L ec ec.dur hk, hone, mul_one, hdiff, hup, toInt_intCast]
  · constructor
    · rw [query_InQuad L ec 0 hk, zero_div]
      norm_num [toInt_intCast]
    · rw [query_InQuad L ec ec.dur hk, hone, one_pow, mul_one, hdiff, hup, toInt_intCast]
  · constructor
    · rw [query_OutQuad L ec 0 hk, zero_div, sub_zero, one_pow, mul_one, hdiff]
      have hlow : (ec.upper : ℚ) - ((ec.upper : ℚ) - ec.lower) = ec.lower := by ring
      rw [hlow, toInt_intCast]
    · rw [query_OutQuad L ec ec.dur hk, hone, sub_self]
      norm_num [toInt_intCast]

/-- Witness of C2: OutQuad with bounds 100 and 200 and duration 1 returns 100 at time 0
and 200 at time 1. -/
theorem endpoints_witness :
    ((example100 "OutQuad").query decimal 0).2 = 100 ∧
      ((example100 "OutQuad").query decimal (example100 "OutQuad").dur).2 = 200 :=
  endpoints decimal blank (example100 "OutQuad") _ (SetValues_example100 "OutQuad")
    (by simp [example100]) (by simp [example100]) (by norm_num [example100])
    (Or.inr (Or.inr rfl))

/-! ## Monotonicity of Linear -/

/-- C7: for every configuration `SetValues` stores with `upper > lower >= 0` and
`dur > 0`, of kind Linear, and all times `t1 <= t2` in `[0, dur]`, the result at `t1` is
at most the result at `t2`. -/
theorem Linear_monotone (L : StdLib) (ec0 ec : EasingCurve) (v : List String) (t1 t2 : ℚ)
    (hset : SetValues L ec0 v = some ec)
    (_hlo : 0 ≤ ec.lower) (hup : ec.lower < ec.upper) (hd : 0 < ec.dur)
    (hk : ec.curve_type = "Linear")
    (_h0 : 0 ≤ t1) (h12 : t1 ≤ t2) (_h2 : t2 ≤ ec.dur) :
    (ec.query L t1).2 ≤ (ec.query L t2).2 := by
  have hdiff : (0 : ℚ) ≤ ec.diff := by
    rw [(SetValues_fields hset).1]
    exact_mod_cast le_of_lt (sub_pos.mpr hup)
  rw [query_Linear L ec t1 hk, query_Linear L ec t2 hk]
  apply toInt_mono
  have hdiv : t1 / ec.dur ≤ t2 / ec.dur := div_le_div_of_nonneg_right h12 (le_of_lt hd)
  have hmul := mul_le_mul_of_nonneg_left hdiv hdiff
  linarith

/-- Witness of C7: Linear with bounds 100 and 200 and duration 1, at the times 0.2 and
0.5. -/
theorem Linear_monotone_witness :
    ((example100 "Linear").query decimal (1 / 5)).2 ≤
      ((example100 "Linear").query decimal (1 / 2)).2 :=
  Linear_monotone decimal blank (example100 "Linear") _ (1 / 5) (1 / 2)
    (SetValues_example100 "Linear") (by simp [example100]) (by simp [example100])
    (by norm_num [example100]) rfl (by norm_num) (by norm_num) (by norm_num [example100])

/-! ## InOutQuad -/

/-- C3, evaluated at a failing input: InOutQuad with bounds 100 and 200 and duration 2
returns 100 at time 0 but 187, not the upper bound 200, at time 2, the end of the curve.
The right segment divides by `dur*dur / 2` where the half duration `dur / 2` is meant. -/
theorem InOutQuad_end_dur2 :
    session decimal ["InOutQuad", "100", "200", "2"] 0 = some 100 ∧
      session decimal ["InOutQuad", "100", "200", "2"] 2 = some 187 := by
  simp only [session, SetValues_example100slow, Option.map_some']
  constructor
  · rw [query_InOutQuad_left decimal example100slow 0 rfl (by norm_num [example100slow])]
    norm_num [example100slow, toInt]
  · rw [query_InOutQuad_right decimal example100slow 2 rfl (by norm_num [example100slow])]
    norm_num [example100slow, toInt, Int.floor_eq_iff]

/-- C4: for every configuration `SetValues` stores with `upper > lower >= 0` and
`dur > 0`, of kind InOutQuad, the query at time `dur / 2` returns
`lower + (upper - lower) / 2`, the division truncating. -/
theorem InOutQuad_midpoint (L : StdLib) (ec0 ec : EasingCurve) (v : List String)
    (hset : SetValues L ec0 v = some ec)
    (_hlo : 0 ≤ ec.lower) (_hup : ec.lower < ec.upper) (hd : 0 < ec.dur)
    (hk : ec.curve_type = "InOutQuad") :
    (ec.query L (ec.dur / 2)).2 = ec.lower + (ec.upper - ec.lower).tdiv 2 := by
  have hone : 2 * (ec.dur / 2) / ec.dur = 1 := by
    field_simp
  have hmid : (ec.lower : ℚ) + ((ec.mid : ℚ) - ec.lower) * 1 ^ 2 = ec.mid := by ring
  rw [query_InOutQuad_left L ec (ec.dur / 2) hk (le_refl _), hone, hmid, toInt_intCast]
  exact (SetValues_fields hset).2

/-- Witness of C4: InOutQuad with bounds 100 and 200 and duration 1 returns 150 at time
0.5. -/
theorem InOutQuad_midpoint_witness :
    session decimal ["InOutQuad", "100", "200", "1"] (1 / 2) = some 150 := by
  have h := InOutQuad_midpoint decimal blank (example100 "InOutQuad") _
    (SetValues_example100 "InOutQuad") (by simp [example100]) (by simp [example100])
    (by norm_num [example100]) rfl
  have hd : (example100 "InOutQuad").dur / 2 = 1 / 2 := by norm_num [example100]
  rw [hd] at h
  simp only [session, SetValues_example100, Option.map_some']
  rw [h]
  decide

/-- Counterexample to C5: for InOutQuad with bounds 0 and 1 and duration 1, at time
0.5 = `dur / 2` and with `diff' = mid - lower`, the left-branch formula truncates to 0 and
the right-branch formula truncates to 1. -/
theorem InOutQuad_segments_disagree :
    SetValues decimal blank ["InOutQuad", "0", "1", "1"] = some example01 ∧
      toInt (leftSegment (halve { example01 with time := 1 / 2 })) = 0 ∧
      toInt (rightSegment (halve { example01 with time := 1 / 2 })) = 1 := by
  refine ⟨SetValues_example01, ?_, ?_⟩
  · norm_num [leftSegment, halve, example01, pow, toInt]
  · norm_num [rightSegment, halve, example01, pow, toInt]

/-- C5 as amended: for every configuration `SetValues` stores with `upper > lower >= 0` and
`dur > 0`, of kind InOutQuad, at time `dur / 2` and with `diff' = mid - lower` the
left-branch formula truncates to `mid` and the right-branch formula truncates to
`upper - (mid - lower)`. The two are the same value when `upper - lower` is even, and the
right-branch value is larger by exactly one when `upper - lower` is odd. -/
theorem InOutQuad_segments_at_midpoint (L : StdLib) (ec0 ec : EasingCurve) (v : List String)
    (hset : SetValues L ec0 v = some ec)
    (_hlo : 0 ≤ ec.lower) (hup : ec.lower < ec.upper) (hd : 0 < ec.dur)
    (_hk : ec.curve_type = "InOutQuad") :
    toInt (leftSegment (halve { ec with time := ec.dur / 2 })) = ec.mid ∧
    toInt (rightSegment (halve { ec with time := ec.dur / 2 })) =
      ec.upper - (ec.mid - ec.lower) ∧
    ((ec.upper - ec.lower) % 2 = 0 →
      toInt (rightSegment (halve { ec with time := ec.dur / 2 })) =
        toInt (leftSegment (halve { ec with time := ec.dur / 2 }))) ∧
    ((ec.upper - ec.lower) % 2 = 1 →
      toInt (rightSegment (halve { ec with time := ec.dur / 2 })) =
        toInt (leftSegment (halve { ec with time := ec.dur / 2 })) + 1) := by
  have hone : 2 * (ec.dur / 2) / ec.dur = 1 := by
    field_simp
  have hl : leftSegment (halve { ec with time := ec.dur / 2 }) = ((ec.mid : Int) : ℚ) := by
    simp only [leftSegment, halve, pow, hone]
    push_cast
    norm_num
  have hr : rightSegment (halve { ec with time := ec.dur / 2 }) =
      ((ec.upper - (ec.mid - ec.lower) : Int) : ℚ) := by
    simp only [rightSegment, halve, pow, sub_self, zero_div, sub_zero]
    push_cast
    norm_num
  have hmid : ec.mid = ec.lower + (ec.upper - ec.lower) / 2 := by
    rw [(SetValues_fields hset).2,
      Int.tdiv_eq_ediv (le_of_lt (sub_pos.mpr hup)) (by decide)]
  rw [hl, hr, toInt_intCast, toInt_intCast]
  refine ⟨rfl, rfl, ?_, ?_⟩
  · intro heven
    omega
  · intro hodd
    omega

/-- Witness of C5 as amended: InOutQuad with bounds 100 and 200 and duration 1 (the
difference 100 is even), at time 0.5: both formulas truncate to the same value. -/
theorem InOutQuad_segments_at_midpoint_witness :
    toInt (rightSegment (halve { example100 "InOutQuad" with
        time := (example100 "InOutQuad").dur / 2 })) =
      toInt (leftSegment (halve { example100 "InOutQuad" with
        time := (example100 "InOutQuad").dur / 2 })) :=
  (InOutQuad_segments_at_midpoint decimal blank (example100 "InOutQuad") _
    (SetValues_example100 "InOutQuad") (by simp [example100]) (by simp [example100])
    (by norm_num [example100]) rfl).2.2.1 (by simp [example100])

/-- Counterexample to C6: for InOutQuad with bounds 100 and 200 and duration 1 the value
returned at time 0.7 is 182, not the 168 of the header comment. -/
theorem InOutQuad_not_168 :
    session decimal ["InOutQuad", "100", "200", "1"] (7 / 10) = some 182 ∧
      session decimal ["InOutQuad", "100", "200", "1"] (7 / 10) ≠ some 168 := by
  have h : session decimal ["InOutQuad", "100", "200", "1"] (7 / 10) = some 182 := by
    simp only [session, SetValues_example100, Option.map_some']
    rw [query_InOutQuad_right decimal _ (7 / 10) rfl (by norm_num [example100])]
    norm_num [example100, toInt]
  refine ⟨h, ?_⟩
  rw [h]
  decide

/-- C6 as amended: InOutQuad with bounds 100 and 200 and duration 1 returns 108 at time
0.2, 132 at time 0.4, 182 at time 0.7 and 200 at time 1.0. -/
theorem InOutQuad_header_examples :
    session decimal ["InOutQuad", "100", "200", "1"] (1 / 5) = some 108 ∧
      session decimal ["InOutQuad", "100", "200", "1"] (2 / 5) = some 132 ∧
      session decimal ["InOutQuad", "100", "200", "1"] (7 / 10) = some 182 ∧
      session decimal ["InOutQuad", "100", "200", "1"] 1 = some 200 := by
  simp only [session, SetValues_example100, Option.map_some']
  refine ⟨?_, ?_, ?_, ?_⟩
  · rw [query_InOutQuad_left decimal _ (1 / 5) rfl (by norm_num [example100])]
    norm_num [example100, toInt]
  · rw [query_InOutQuad_left decimal _ (2 / 5) rfl (by norm_num [example100])]
    norm_num [example100, toInt]
  · rw [query_InOutQuad_right decimal _ (7 / 10) rfl (by norm_num [example100])]
    norm_num [example100, toInt]
  · rw [query_InOutQuad_right decimal _ 1 rfl (by norm_num [example100])]
    norm_num [example100, toInt]

/-! ## The quadratic curves against Linear, strictly inside the interval -/

/-- Counterexample to C8: with bounds 100 and 200 and duration 1, at the time 0.005
(strictly between 0 and 1) Linear, InQuad and OutQuad all return 100. -/
theorem quads_equal_Linear_inside :
    session decimal ["Linear", "100", "200", "1"] (1 / 200) = some 100 ∧
      session decimal ["InQuad", "100", "200", "1"] (1 / 200) = some 100 ∧
      session decimal ["OutQuad", "100", "200", "1"] (1 / 200) = some 100 := by
  simp only [session, SetValues_example100, Option.map_some']
  refine ⟨?_, ?_, ?_⟩
  · rw [query_Linear decimal _ (1 / 200) rfl]
    norm_num [example100, toInt, Int.floor_eq_iff]
  · rw [query_InQuad decimal _ (1 / 200) rfl]
    norm_num [example100, toInt, Int.floor_eq_iff]
  · rw [query_OutQuad decimal _ (1 / 200) rfl]
    norm_num [example100, toInt, Int.floor_eq_iff]

end EasingCurve

/-! ## The order of the checks of `ValidInput` -/

/-- The order of the guards of `ValidInput`, in the terms the code tests them: exactly four
fields, known curve kind, `ValidInt` of the lower field, `stoi` of the lower field not below
0, `ValidInt` of the upper field, `stoi` of the upper field not below 0, `stoi` of the upper
field above `stoi` of the lower field; the first guard that fails decides the message, as
long as every `stoi` reached returns. -/
theorem ValidInput_guard_order (L : StdLib) (v : List String) :
    (v.length ≠ 4 → ValidInput L v = .rejected .WrongFieldCount) ∧
    (∀ v0 v1 v2 v3 : String, v = [v0, v1, v2, v3] →
      (v0 ∉ ["Linear", "InQuad", "OutQuad", "InOutQuad"] →
        ValidInput L v = .rejected .UnknownCurveKind) ∧
      (v0 ∈ ["Linear", "InQuad", "OutQuad", "InOutQuad"] →
        (ValidInt L v1 = false → ValidInput L v = .rejected .LowerNotInteger) ∧
        (ValidInt L v1 = true → ∀ lo : Int, L.stoi v1 = some lo →
          (lo < 0 → ValidInput L v = .rejected .LowerNegative) ∧
          (0 ≤ lo →
            (ValidInt L v2 = false → ValidInput L v = .rejected .UpperNotInteger) ∧
            (ValidInt L v2 = true → ∀ up : Int, L.stoi v2 = some up →
              (up < 0 → ValidInput L v = .rejected .UpperNegative) ∧
              (0 ≤ up → up ≤ lo →
                ValidInput L v = .rejected .UpperNotGreaterThanLower) ∧
              (0 ≤ up → lo < up → ∀ r : Rejection, ValidInput L v = .rejected r →
                r = .DurationNotNumeric ∨ r = .DurationNotPositive)))))) := by
  constructor
  · intro hlen
    unfold ValidInput
    split
    · exact absurd rfl hlen
    · rfl
  · intro v0 v1 v2 v3 hv
    subst hv
    constructor
    · intro hk
      have hk' := (unknownKind_iff v0).mpr hk
      simp only [ValidInput, if_pos hk']
    · intro hk
      have hk' : ¬ (v0 ≠ "Linear" ∧ v0 ≠ "InQuad" ∧ v0 ≠ "OutQuad" ∧ v0 ≠ "InOutQuad") :=
        fun h => (unknownKind_iff v0).mp h hk
      constructor
      · intro h1
        simp [ValidInput, if_neg hk', h1]
      · intro h1 lo hlo
        constructor
        · intro hneg
          simp [ValidInput, if_neg hk', h1, hlo, hneg]
        · intro hnn
          have hnn' : ¬ lo < 0 := not_lt.mpr hnn
          constructor
          · intro h2
            simp [ValidInput, if_neg hk', h1, hlo, hnn', h2]
          · intro h2 up hup
            refine ⟨?_, ?_, ?_⟩
            · intro hneg
              simp [ValidInput, if_neg hk', h1, hlo, hnn', h2, hup, hneg]
            · intro hupnn hle
              have hupnn' : ¬ up < 0 := not_lt.mpr hupnn
              simp [ValidInput, if_neg hk', h1, hlo, hnn', h2, hup, hupnn', hle]
            · intro hupnn hlt r hr
              have hupnn' : ¬ up < 0 := not_lt.mpr hupnn
              have hle' : ¬ up ≤ lo := not_le.mpr hlt
              simp only [ValidInput, if_neg hk', h1, hlo, hnn', h2, hup, hupnn', hle',
                Bool.not_true, Bool.false_eq_true, if_false] at hr
              split at hr
              · simp only [Outcome.rejected.injEq] at hr
                exact Or.inl hr.symm
              · split at hr
                · exact absurd hr (by simp)
                · split at hr
                  · simp only [Outcome.rejected.injEq] at hr
                    exact Or.inr hr.symm
                  · exact absurd hr (by simp)

/-- The list `["Linear", "-100", "-200", "-1.0"]` of the comment of `UserInputEC` is
rejected as LowerNegative. -/
theorem ValidInput_guard_order_example :
    ValidInput decimal ["Linear", "-100", "-200", "-1.0"] = .rejected .LowerNegative :=
  ((((ValidInput_guard_order decimal ["Linear", "-100", "-200", "-1.0"]).2
    "Linear" "-100" "-200" "-1.0" rfl).2 (by simp)).2 ValidInt_decimal_neg100 (-100)
    decimalStoi_neg100).1 (by decide)

/-! ## The duration checks of `ValidInput` -/

/-- C10, evaluated at a failing input: the list `["Linear", "100", "200", "0.5"]` passes the
first seven checks and its duration field converts with `stod` to 0.5, a value above 0;
`ValidInput` rejects it as DurationNotPositive, because the last check compares
`stoi` of the field, which is 0, with 0. -/
theorem ValidInput_rejects_half :
    decimal.stod "0.5" = some (.finite (1 / 2)) ∧ decimal.stoi "0.5" = some 0 ∧
      ValidInput decimal ["Linear", "100", "200", "0.5"] = .rejected .DurationNotPositive := by
  refine ⟨decimalStod_half, decimalStoi_half, ?_⟩
  have h100 : decimal.stoi "100" = some 100 := decimalStoi_100
  have h200 : decimal.stoi "200" = some 200 := decimalStoi_200
  have hd : ValidDbl decimal "0.5" = true := by
    have h : decimal.stod "0.5" = some (.finite (1 / 2)) := decimalStod_half
    simp [ValidDbl, h]
  have hi : decimal.stoi "0.5" = some 0 := decimalStoi_half
  simp [ValidInput, ValidInt_decimal_100, ValidInt_decimal_200, h100, h200, hd, hi]

/-! ## The integer check -/

/-- Counterexample to C11: the field `100.00001` converts to a number whose fractional
part, 0.00001, is within 0.0001 of zero, and `ValidInt` rejects it. -/
theorem ValidInt_rejects_near_whole :
    decimal.stod "100.00001" = some (.finite (100 + 1 / 100000)) ∧
      ValidInt decimal "100.00001" = false := by
  have h : scanNumeral "100.00001" = some ⟨false, 10000001, 5, 0⟩ := by decide
  have hv : decimal.stod "100.00001" = some (.finite (100 + 1 / 100000)) := by
    show decimalStod "100.00001" = _
    rw [decimalStod_of_scan (by decide) h]
    simp [Numeral.value]
    norm_num
  refine ⟨hv, ?_⟩
  have hc : ⌈(100 + 1 / 100000 : ℚ)⌉ = 101 := by
    rw [Int.ceil_eq_iff]
    norm_num
  have hf : ⌊(100 + 1 / 100000 : ℚ)⌋ = 100 := by
    rw [Int.floor_eq_iff]
    norm_num
  simp only [ValidInt, hv, hc, hf]
  norm_num

theorem whole_check (x : ℚ) :
    (if |((⌈x⌉ : Int) : ℚ) - ((⌊x⌋ : Int) : ℚ)| < 1 / 10000 then true else false) = true ↔
      Int.fract x = 0 := by
  simp only [ite_eq_left_iff, Bool.false_eq_true, imp_false, not_not]
  constructor
  · intro h
    have hle : (⌊x⌋ : ℚ) ≤ x := Int.floor_le x
    have hge : x ≤ (⌈x⌉ : ℚ) := Int.le_ceil x
    have hz : |(⌈x⌉ - ⌊x⌋ : Int)| < 1 := by
      have h' : ((|(⌈x⌉ - ⌊x⌋ : Int)| : Int) : ℚ) < 1 := by
        push_cast
        linarith
      exact_mod_cast h'
    have heq : ⌈x⌉ = ⌊x⌋ := by
      have := abs_lt.mp hz
      omega
    have hx : x = (⌊x⌋ : ℚ) := by
      rw [heq] at hge
      exact le_antisymm hge hle
    rw [Int.fract, ← hx, sub_self]
  · intro h
    have hx : x = (⌊x⌋ : ℚ) := by
      have := Int.fract_add_floor x
      rw [h, zero_add] at this
      exact this.symm
    have hc : ⌈x⌉ = ⌊x⌋ := by
      conv_lhs => rw [hx]
      exact Int.ceil_intCast _
    rw [hc, sub_self, abs_zero]
    norm_num

/-- C11 as amended: `ValidInt` accepts a string exactly when `stod` converts it to a
(finite) number whose fractional part is zero. (The difference `ceil - floor` is 0 or 1, so
the bound 0.0001 admits no other value.) -/
theorem ValidInt_iff_whole (L : StdLib) (s : String) :
    ValidInt L s = true ↔ ∃ x : ℚ, L.stod s = some (.finite x) ∧ Int.fract x = 0 := by
  unfold ValidInt
  cases hs : L.stod s with
  | none => simp
  | some d =>
    cases d with
    | finite x =>
      simp only [Option.some.injEq, Double.finite.injEq, exists_eq_left']
      exact whole_check x
    | nan => simp
    | inf b => simp

/-! ## The tokenizer -/

theorem entriesOf_ne_nil (c : Char) (cs : List Char) : entriesOf (c :: cs) ≠ [] := by
  unfold entriesOf
  split
  · simp
  · split <;> simp

theorem afterEquals_true (tok : List Char) :
    afterEquals true tok = tok.filter fun c => c != '=' := by
  induction tok with
  | nil => rfl
  | cons c cs ih =>
    by_cases hc : c = '='
    · simp [afterEquals, hc, ih]
    · simp [afterEquals, hc, ih]

theorem afterEquals_false (tok : List Char) : afterEquals false tok = valueText tok := by
  induction tok with
  | nil => rfl
  | cons c cs ih =>
    by_cases hc : c = '='
    · simp [afterEquals, valueText, hc, afterEquals_true, List.dropWhile]
    · have hb : (c != '=') = true := by simpa using hc
      simp only [afterEquals, if_neg hc, Bool.false_eq_true, if_false, ih, valueText,
        List.dropWhile, hb]

theorem dropEmptyLast_cons_of_ne_nil (p : List Char) {ps : List (List Char)} (h : ps ≠ []) :
    dropEmptyLast (p :: ps) = p :: dropEmptyLast ps := by
  cases ps with
  | nil => exact absurd rfl h
  | cons q qs => rfl

theorem entriesOf_eq_commaTokens (cs : List Char) : entriesOf cs = commaTokens cs := by
  induction cs with
  | nil => simp [entriesOf, commaTokens, List.splitOn, dropEmptyLast]
  | cons c cs ih =>
    have hne : cs.splitOnP (fun x => x == ',') ≠ [] := List.splitOnP_ne_nil _ _
    unfold commaTokens List.splitOn at ih ⊢
    rw [List.splitOnP_cons]
    by_cases hc : c = ','
    · simp only [entriesOf, hc, if_true, beq_self_eq_true]
      rw [dropEmptyLast_cons_of_ne_nil _ hne, ← ih]
    · have hb : (c == ',') = false := by simpa using hc
      simp only [entriesOf, hc, if_false, hb, Bool.false_eq_true]
      rw [ih]
      cases hP : cs.splitOnP (fun x => x == ',') with
      | nil => exact absurd hP hne
      | cons p0 ps =>
        cases ps with
        | nil =>
          by_cases hp : p0 = []
          · simp [dropEmptyLast, hp]
          · simp [dropEmptyLast, hp]
        | cons q qs =>
          simp [dropEmptyLast]

theorem length_entriesOf (cs : List Char) : (entriesOf cs).length = fieldCount cs := by
  induction cs with
  | nil => rfl
  | cons c cs ih =>
    cases cs with
    | nil =>
      by_cases hc : c = ','
      · simp [entriesOf, fieldCount, hc]
      · have hcount : [c].count ',' = 0 := by
          rw [List.count_cons_of_ne (fun h => hc h.symm)]
          rfl
        simp [entriesOf, fieldCount, hc, hcount]
    | cons d ds =>
      have hlast : (c :: d :: ds).getLast? = (d :: ds).getLast? := by simp [List.getLast?]
      have hne := entriesOf_ne_nil d ds
      by_cases hc : c = ','
      · subst hc
        rw [entriesOf, if_pos rfl, List.length_cons, ih]
        simp only [fieldCount, hlast, List.count_cons_self]
        omega
      · have hcount : (c :: d :: ds).count ',' = (d :: ds).count ',' := by
          rw [List.count_cons_of_ne (fun h => hc h.symm)]
        rw [entriesOf, if_neg hc]
        cases hE : entriesOf (d :: ds) with
        | nil => exact absurd hE hne
        | cons e es =>
          rw [hE] at ih
          simp only [List.length_cons] at ih ⊢
          rw [ih]
          simp only [fieldCount, hlast, hcount]

theorem tokenize_of_entries {line : String} {e : List Char} {es : List (List Char)}
    (h : entriesOf line.data = e :: es) :
    tokenize line = some (String.mk e :: es.map fun x => String.mk (afterEquals false x)) := by
  simp only [tokenize, h]

theorem decimalStod_1_0 : decimalStod "1.0" = some (.finite 1) := by
  have h : scanNumeral "1.0" = some ⟨false, 10, 1, 0⟩ := by decide
  rw [decimalStod_of_scan (by decide) h]
  simp [Numeral.value]

theorem decimalStoi_1_0 : decimalStoi "1.0" = some 1 := by decide

theorem ValidInput_example100 :
    ValidInput decimal ["Linear", "100", "200", "1.0"] = .accepted := by
  have h100 : decimal.stoi "100" = some 100 := decimalStoi_100
  have h200 : decimal.stoi "200" = some 200 := decimalStoi_200
  have hd : ValidDbl decimal "1.0" = true := by
    have h : decimal.stod "1.0" = some (.finite 1) := decimalStod_1_0
    simp [ValidDbl, h]
  have hi : decimal.stoi "1.0" = some 1 := decimalStoi_1_0
  simp [ValidInput, ValidInt_decimal_100, ValidInt_decimal_200, h100, h200, hd, hi]

/-- Counterexample to C12: in the token `x_0=1=2` the second `=` is not kept, the field is
`12`; and the empty line has no first token to return. -/
theorem tokenize_drops_later_equals :
    tokenize "Linear,x_0=1=2" = some ["Linear", "12"] ∧ tokenize "" = none := by
  decide

/-- C12 as amended: for every line that is not empty, the tokenizer splits on `,` (an empty
piece after the last comma is no token) and returns the first token verbatim followed by,
for each later token, the text after that token's first `=` without the `=` signs in it, or
the empty string when the token has no `=`. -/
theorem tokenize_eq_specFields (line : String) (h : line.data ≠ []) :
    tokenize line = some (specFields line) := by
  cases hd : line.data with
  | nil => exact absurd hd h
  | cons c cs =>
    cases hE : entriesOf (c :: cs) with
    | nil => exact absurd hE (entriesOf_ne_nil c cs)
    | cons e es =>
      rw [← hd] at hE
      rw [tokenize_of_entries hE]
      have hC : commaTokens line.data = e :: es := by
        rw [← entriesOf_eq_commaTokens, hE]
      simp only [specFields, hC, afterEquals_false]

/-- Witness of C12: the line `Linear,x_0=100,x_max=200,dur=1.0` yields the fields
`Linear`, `100`, `200`, `1.0`. -/
theorem tokenize_eq_specFields_witness :
    tokenize "Linear,x_0=100,x_max=200,dur=1.0" = some ["Linear", "100", "200", "1.0"] := by
  rw [tokenize_eq_specFields "Linear,x_0=100,x_max=200,dur=1.0" (by decide)]
  decide

/-- Counterexample to C13: the line `Linear,x_0=100,x_max=200,dur=1.0,` has four commas, is
tokenized into four fields, not five, and is accepted. -/
theorem trailing_comma_accepted :
    tokenize "Linear,x_0=100,x_max=200,dur=1.0," = some ["Linear", "100", "200", "1.0"] ∧
      UserInputECPass decimal "Linear,x_0=100,x_max=200,dur=1.0," =
        .accepted ["Linear", "100", "200", "1.0"] := by
  have ht : tokenize "Linear,x_0=100,x_max=200,dur=1.0," =
      some ["Linear", "100", "200", "1.0"] := by decide
  refine ⟨ht, ?_⟩
  simp only [UserInputECPass, ht, ValidInput_example100]

/-- C13 as amended: a line that is not empty and has `k` commas is tokenized into `k + 1`
fields, or into `k` fields when its last character is a comma (`fieldCount`); when that
number is not four the pass ends in WrongFieldCount. So every line with more than three
commas whose last character is not a comma is rejected with WrongFieldCount. -/
theorem tokenize_field_count (L : StdLib) (line : String) (h : line.data ≠ []) :
    ∃ v : List String, tokenize line = some v ∧ v.length = fieldCount line.data ∧
      (fieldCount line.data ≠ 4 →
        ValidInput L v = .rejected .WrongFieldCount ∧
        UserInputECPass L line = .rejected .WrongFieldCount) ∧
      (3 < line.data.count ',' → line.data.getLast? ≠ some ',' →
        UserInputECPass L line = .rejected .WrongFieldCount) := by
  cases hd : line.data with
  | nil => exact absurd hd h
  | cons c cs =>
    cases hE : entriesOf (c :: cs) with
    | nil => exact absurd hE (entriesOf_ne_nil c cs)
    | cons e es =>
      have hlen := length_entriesOf (c :: cs)
      rw [hE] at hlen
      rw [← hd] at hE
      have ht := tokenize_of_entries hE
      have hvlen : (String.mk e :: es.map fun x => String.mk (afterEquals false x)).length =
          fieldCount (c :: cs) := by
        rw [← hlen]
        simp
      have hrej : fieldCount (c :: cs) ≠ 4 →
          ValidInput L (String.mk e :: es.map fun x => String.mk (afterEquals false x)) =
            .rejected .WrongFieldCount ∧
          UserInputECPass L line = .rejected .WrongFieldCount := by
        intro hne
        have hv : ValidInput L (String.mk e :: es.map fun x => String.mk (afterEquals false x)) =
            .rejected .WrongFieldCount := by
          unfold ValidInput
          split
          · rename_i heq
            rw [heq] at hvlen
            exact absurd hvlen.symm hne
          · rfl
        refine ⟨hv, ?_⟩
        simp only [UserInputECPass, ht, hv]
      refine ⟨_, ht, hvlen, hrej, ?_⟩
      intro hk hl
      have hfc : fieldCount (c :: cs) = (c :: cs).count ',' + 1 := by
        unfold fieldCount
        cases hg : (c :: cs).getLast? with
        | none => simp at hg
        | some d =>
          have hdne : d ≠ ',' := fun hdc => hl (by rw [hg, hdc])
          simp only [if_neg hdne]
      exact (hrej (by omega)).2

/-- Witness of C13: the line `Linear,x_0=100,x_max=200,dur=1.0,a` yields five fields, the
last one empty, and is rejected with WrongFieldCount. -/
theorem tokenize_field_count_witness :
    tokenize "Linear,x_0=100,x_max=200,dur=1.0,a" =
        some ["Linear", "100", "200", "1.0", ""] ∧
      UserInputECPass decimal "Linear,x_0=100,x_max=200,dur=1.0,a" =
        .rejected .WrongFieldCount := by
  obtain ⟨v, _, _, _, h4⟩ :=
    tokenize_field_count decimal "Linear,x_0=100,x_max=200,dur=1.0,a" (by decide)
  exact ⟨by decide, h4 (by decide) (by decide)⟩

/-! ## Input lines that end the program -/

theorem decimalStod_dot5 : decimalStod ".5" = some (.finite (1 / 2)) := by
  have h : scanNumeral ".5" = some ⟨false, 5, 1, 0⟩ := by decide
  rw [decimalStod_of_scan (by decide) h]
  simp [Numeral.value]
  norm_num

theorem decimalStoi_dot5 : decimalStoi ".5" = none := by decide

theorem ValidInt_decimal_big : ValidInt decimal "99999999999" = true := by
  have h : scanNumeral "99999999999" = some ⟨false, 99999999999, 0, 0⟩ := by decide
  have hd : decimalStod "99999999999" = some (.finite (((99999999999 : Int) : ℚ))) := by
    rw [decimalStod_of_scan (by decide) h]
    simp [Numeral.value]
  exact ValidInt_of_stod_intCast decimal "99999999999" 99999999999 hd

theorem decimalStoi_big : decimalStoi "99999999999" = none := by decide

/-- C14, evaluated at three failing inputs: on the empty line the pass reads `entries[0]`
out of bounds; on a line whose duration field is `.5` (`stod` converts it, `stoi` throws
`invalid_argument`) and on a line whose lower bound is 99999999999 (`ValidInt` accepts it,
`stoi` throws `out_of_range`) an exception leaves `ValidInput` uncaught. -/
theorem UserInputECPass_aborts :
    UserInputECPass decimal "" = .outOfBounds ∧
      UserInputECPass decimal "Linear,x_t0=100,x_tmax=200,duration=.5" = .uncaught ∧
      UserInputECPass decimal "Linear,x_t0=99999999999,x_tmax=200,duration=1" = .uncaught := by
  refine ⟨by decide, ?_, ?_⟩
  · have ht : tokenize "Linear,x_t0=100,x_tmax=200,duration=.5" =
        some ["Linear", "100", "200", ".5"] := by decide
    have h100 : decimal.stoi "100" = some 100 := decimalStoi_100
    have h200 : decimal.stoi "200" = some 200 := decimalStoi_200
    have hd : ValidDbl decimal ".5" = true := by
      have h : decimal.stod ".5" = some (.finite (1 / 2)) := decimalStod_dot5
      simp [ValidDbl, h]
    have hi : decimal.stoi ".5" = none := decimalStoi_dot5
    have hv : ValidInput decimal ["Linear", "100", "200", ".5"] = .uncaught := by
      simp [ValidInput, ValidInt_decimal_100, ValidInt_decimal_200, h100, h200, hd, hi]
    simp only [UserInputECPass, ht, hv]
  · have ht : tokenize "Linear,x_t0=99999999999,x_tmax=200,duration=1" =
        some ["Linear", "99999999999", "200", "1"] := by decide
    have hi : decimal.stoi "99999999999" = none := decimalStoi_big
    have hv : ValidInput decimal ["Linear", "99999999999", "200", "1"] = .uncaught := by
      simp [ValidInput, ValidInt_decimal_big, hi]
    simp only [UserInputECPass, ht, hv]

/-! ## The time-query validator -/

namespace EasingCurve

theorem decimalStod_nan : decimalStod "nan" = some .nan := by
  have h : scanSpecial "nan" = some .nan := by decide
  simp only [decimalStod, h]

/-- C15, evaluated at a failing input: `stod` converts the line `nan` to NaN; both
comparisons of line 407 are false for NaN, so the pass accepts the line and
`UserInputTime` returns NaN, which is no number between 0 and the duration. -/
theorem UserInputTimePass_accepts_nan :
    decimal.stod "nan" = some .nan ∧
      UserInputTimePass decimal (example100 "Linear") "nan" = .accepted .nan ∧
      UserInputTime decimal (example100 "Linear") ["nan"] = some (.nan, []) := by
  have hst : decimal.stod "nan" = some .nan := decimalStod_nan
  have hp : UserInputTimePass decimal (example100 "Linear") "nan" = .accepted .nan := by
    simp [UserInputTimePass, ValidDbl, hst, Double.less, Double.greater]
  refine ⟨hst, hp, ?_⟩
  simp only [UserInputTime, hp]

end EasingCurve

/-! ## Conversions for the further examples -/

theorem decimalStoi_150 : decimalStoi "150" = some 150 := by decide

theorem SetValues_example150 :
    EasingCurve.SetValues decimal blank ["OutQuad", "150", "200", "1"] = some example150 := by
  simp [EasingCurve.SetValues, decimal, decimalStoi_150, decimalStoi_200, decimalStod_1,
    example150]
  decide

theorem decimalStod_quarter : decimalStod "25e-2" = some (.finite (1 / 4)) := by
  have h : scanNumeral "25e-2" = some ⟨false, 25, 0, -2⟩ := by decide
  rw [decimalStod_of_scan (by decide) h]
  simp [Numeral.value]
  norm_num

theorem decimalStoi_quarter : decimalStoi "25e-2" = some 25 := by decide

theorem SetValues_exampleQuarter :
    EasingCurve.SetValues decimal blank ["InOutQuad", "100", "200", "25e-2"] =
      some exampleQuarter := by
  simp [EasingCurve.SetValues, decimal, decimalStoi_100, decimalStoi_200, decimalStod_quarter,
    exampleQuarter]
  decide

namespace EasingCurve

/-! ## The branch InOutQuad takes at the midpoint -/

/-- Counterexample to C16: for InOutQuad with bounds 0 and 1 and duration 1 the query at
time 0.5 = `dur / 2` returns 0, while the expression of the second branch truncates to 1
there. -/
theorem InOutQuad_midpoint_not_second_branch :
    session decimal ["InOutQuad", "0", "1", "1"] (1 / 2) = some 0 ∧
      toInt (rightSegment (halve { example01 with time := 1 / 2 })) = 1 := by
  constructor
  · simp only [session, SetValues_example01, Option.map_some']
    rw [query_InOutQuad_left decimal example01 (1 / 2) rfl (by norm_num [example01])]
    norm_num [example01, toInt]
  · norm_num [rightSegment, halve, example01, pow, toInt]

/-- C16 as amended: for every configuration `SetValues` stores with `upper > lower >= 0`
and `dur > 0`, of kind InOutQuad, the query at time exactly `dur / 2` takes the first
branch (`time <= dur / 2`): the object after the call is the one that branch leaves, and
the result is the truncation of `lower + diff' * (2 * time / dur)^2` with
`diff' = mid - lower`. -/
theorem InOutQuad_midpoint_first_branch (L : StdLib) (ec0 ec : EasingCurve) (v : List String)
    (_hset : SetValues L ec0 v = some ec)
    (_hlo : 0 ≤ ec.lower) (_hup : ec.lower < ec.upper) (_hd : 0 < ec.dur)
    (hk : ec.curve_type = "InOutQuad") :
    (ec.query L (ec.dur / 2)).1 =
        { halve { ec with time := ec.dur / 2 } with
          result := toInt (leftSegment (halve { ec with time := ec.dur / 2 })) } ∧
      (ec.query L (ec.dur / 2)).2 =
        toInt (ec.lower + ((ec.mid : ℚ) - ec.lower) * (2 * (ec.dur / 2) / ec.dur) ^ 2) := by
  refine ⟨?_, query_InOutQuad_left L ec (ec.dur / 2) hk (le_refl _)⟩
  simp [query, Calculate, hk, InOutQuad, halve]

/-- Witness of C16 as amended: InOutQuad with bounds 0 and 1 and duration 1 at time 0.5. -/
theorem InOutQuad_midpoint_first_branch_witness :
    (example01.query decimal (example01.dur / 2)).2 =
      toInt (example01.lower + ((example01.mid : ℚ) - example01.lower) *
        (2 * (example01.dur / 2) / example01.dur) ^ 2) :=
  (InOutQuad_midpoint_first_branch decimal blank example01 _ SetValues_example01
    (by simp [example01]) (by simp [example01]) (by norm_num [example01]) rfl).2

/-! ## InOutQuad against its two halves -/

/-- C17, evaluated at a failing input: InOutQuad with bounds 100 and 200 and duration 2
returns 187 at time 2, while OutQuad with the bounds (mid, upper) = (150, 200) and the
duration 2 / 2 = 1 returns 200 at time 2 - 1 = 1. -/
theorem InOutQuad_right_half_not_OutQuad :
    session decimal ["InOutQuad", "100", "200", "2"] 2 = some 187 ∧
      session decimal ["OutQuad", "150", "200", "1"] 1 = some 200 := by
  simp only [session, SetValues_example100slow, SetValues_example150, Option.map_some']
  constructor
  · rw [query_InOutQuad_right decimal example100slow 2 rfl (by norm_num [example100slow])]
    norm_num [example100slow, toInt, Int.floor_eq_iff]
  · rw [query_OutQuad decimal example150 1 rfl]
    norm_num [example150, toInt]

/-! ## Results outside the bounds -/

/-- C19, evaluated at a failing input: the fields `InOutQuad`, `100`, `200`, `25e-2` are
accepted by `ValidInput` and give the duration 0.25; the line `25e-2` is accepted as the
time 0.25; the result there is -250, below the lower bound 100. -/
theorem InOutQuad_below_lower :
    ValidInput decimal ["InOutQuad", "100", "200", "25e-2"] = .accepted ∧
      UserInputTimePass decimal exampleQuarter "25e-2" = .accepted (.finite (1 / 4)) ∧
      session decimal ["InOutQuad", "100", "200", "25e-2"] (1 / 4) = some (-250) := by
  have hst : decimal.stod "25e-2" = some (.finite (1 / 4)) := decimalStod_quarter
  refine ⟨?_, ?_, ?_⟩
  · have h100 : decimal.stoi "100" = some 100 := decimalStoi_100
    have h200 : decimal.stoi "200" = some 200 := decimalStoi_200
    have hd : ValidDbl decimal "25e-2" = true := by simp [ValidDbl, hst]
    have hi : decimal.stoi "25e-2" = some 25 := decimalStoi_quarter
    simp [ValidInput, ValidInt_decimal_100, ValidInt_decimal_200, h100, h200, hd, hi]
  · simp only [UserInputTimePass, ValidDbl, hst, Double.less, Double.greater]
    norm_num [exampleQuarter]
  · simp only [session, SetValues_exampleQuarter, Option.map_some']
    rw [query_InOutQuad_right decimal exampleQuarter (1 / 4) rfl (by norm_num [exampleQuarter])]
    have hval : ((exampleQuarter.upper : ℚ) - ((exampleQuarter.mid : ℚ) - exampleQuarter.lower) *
        (1 - (1 / 4 - exampleQuarter.dur / 2) / (exampleQuarter.dur * exampleQuarter.dur / 2)) ^ 2)
        = ((-250 : Int) : ℚ) := by
      norm_num [exampleQuarter]
    rw [hval, toInt_intCast]

/-! ## Independence of the history -/

theorem SetValues_curve_type {L : StdLib} {ec0 ec : EasingCurve} {k : String}
    {fs : List String} (h : SetValues L ec0 (k :: fs) = some ec) : ec.curve_type = k := by
  have h' := SetValues_kind h k
  rw [h] at h'
  simp only [Option.some.injEq] at h'
  rw [h']

theorem SetValues_sameConfig {L : StdLib} {ec0 ec0' ec ec' : EasingCurve} {v : List String}
    (h : SetValues L ec0 v = some ec) (h' : SetValues L ec0' v = some ec')
    (hk : ec.curve_type ∈ ["Linear", "InQuad", "OutQuad", "InOutQuad"] ∨
      ec0.result = ec0'.result) :
    sameConfig ec ec' := by
  rcases v with _ | ⟨v0, _ | ⟨v1, _ | ⟨v2, _ | ⟨v3, rest⟩⟩⟩⟩
  · simp [SetValues] at h
  · simp [SetValues] at h
  · simp [SetValues] at h
  · simp [SetValues] at h
  · cases h1 : L.stoi v1 <;> cases h2 : L.stoi v2 <;> cases h3 : L.stod v3 <;>
      simp only [SetValues, h1, h2, h3, Option.some.injEq, reduceCtorEq] at h h'
    rename_i lo up d
    cases d with
    | finite q =>
      simp only [Option.some.injEq] at h h'
      subst h h'
      exact ⟨rfl, rfl, rfl, rfl, rfl, Or.inr rfl, hk⟩
    | nan => simp at h
    | inf b => simp at h

theorem sameConfig_query_result (L : StdLib) {e e' : EasingCurve} (h : sameConfig e e')
    (t : ℚ) : (e.query L t).2 = (e'.query L t).2 := by
  obtain ⟨h1, h2, h3, h4, h5, h6, h7⟩ := h
  by_cases k1 : e.curve_type = "Linear"
  · have hdiff : e.diff = e'.diff := by
      rcases h6 with h6 | h6
      · rw [k1] at h6
        exact absurd h6 (by decide)
      · exact h6
    rw [query_Linear L e t k1, query_Linear L e' t (h5 ▸ k1), h1, hdiff, h4]
  · by_cases k2 : e.curve_type = "InQuad"
    · have hdiff : e.diff = e'.diff := by
        rcases h6 with h6 | h6
        · rw [k2] at h6
          exact absurd h6 (by decide)
        · exact h6
      rw [query_InQuad L e t k2, query_InQuad L e' t (h5 ▸ k2), h1, hdiff, h4]
    · by_cases k3 : e.curve_type = "OutQuad"
      · have hdiff : e.diff = e'.diff := by
          rcases h6 with h6 | h6
          · rw [k3] at h6
            exact absurd h6 (by decide)
          · exact h6
        rw [query_OutQuad L e t k3, query_OutQuad L e' t (h5 ▸ k3), h2, hdiff, h4]
      · by_cases k4 : e.curve_type = "InOutQuad"
        · have k4' : e'.curve_type = "InOutQuad" := h5 ▸ k4
          by_cases ht : t ≤ e.dur / 2
          · rw [query_InOutQuad_left L e t k4 ht,
              query_InOutQuad_left L e' t k4' (h4 ▸ ht), h1, h3, h4]
          · have ht' : e.dur / 2 < t := not_le.mp ht
            rw [query_InOutQuad_right L e t k4 ht',
              query_InOutQuad_right L e' t k4' (h4 ▸ ht'), h1, h2, h3, h4]
        · have hres : e.result = e'.result := by
            rcases h7 with h7 | h7
            · simp only [List.mem_cons, List.mem_singleton, List.not_mem_nil, or_false] at h7
              rcases h7 with h7 | h7 | h7 | h7
              · exact absurd h7 k1
              · exact absurd h7 k2
              · exact absurd h7 k3
              · exact absurd h7 k4
            · exact h7
          have k1' : ¬ e'.curve_type = "Linear" := h5 ▸ k1
          have k2' : ¬ e'.curve_type = "InQuad" := h5 ▸ k2
          have k3' : ¬ e'.curve_type = "OutQuad" := h5 ▸ k3
          have k4' : ¬ e'.curve_type = "InOutQuad" := h5 ▸ k4
          simp [query, Calculate, k1, k2, k3, k4, k1', k2', k3', k4', hres]

theorem sameConfig_query_state (L : StdLib) {e e' : EasingCurve} (h : sameConfig e e')
    (t : ℚ) : sameConfig (e.query L t).1 e' := by
  obtain ⟨h1, h2, h3, h4, h5, h6, h7⟩ := h
  by_cases k1 : e.curve_type = "Linear"
  · simp only [query, Calculate, k1, if_true, Linear, ite_self, sameConfig]
    exact ⟨h1, h2, h3, h4, h5 ▸ k1.symm ▸ rfl, Or.inr (h6.resolve_left (by rw [k1]; decide)),
      Or.inl (by simp)⟩
  · by_cases k2 : e.curve_type = "InQuad"
    · simp only [query, Calculate, k2, if_true, InQuad, sameConfig]
      exact ⟨h1, h2, h3, h4, h5 ▸ k2.symm ▸ rfl,
        Or.inr (h6.resolve_left (by rw [k2]; decide)), Or.inl (by simp)⟩
    · by_cases k3 : e.curve_type = "OutQuad"
      · simp only [query, Calculate, k3, if_true, OutQuad, sameConfig]
        exact ⟨h1, h2, h3, h4, h5 ▸ k3.symm ▸ rfl,
          Or.inr (h6.resolve_left (by rw [k3]; decide)), Or.inl (by simp)⟩
      · by_cases k4 : e.curve_type = "InOutQuad"
        · simp only [query, Calculate, k4, InOutQuad, halve, sameConfig]
          simp only [show ¬ ("InOutQuad" = "Linear") by decide,
            show ¬ ("InOutQuad" = "InQuad") by decide,
            show ¬ ("InOutQuad" = "OutQuad") by decide, if_false, if_true]
          split
          · exact ⟨h1, h2, h3, h4, h5 ▸ k4.symm ▸ rfl, Or.inl rfl, Or.inl (by simp)⟩
          · split
            · exact ⟨h1, h2, h3, h4, h5 ▸ k4.symm ▸ rfl, Or.inl rfl, Or.inl (by simp)⟩
            · exact ⟨h1, h2, h3, h4, h5 ▸ k4.symm ▸ rfl, Or.inl rfl, Or.inl (by simp)⟩
        · have hq : (e.query L t).1 = { e with time := t } := by
            simp only [query, Calculate, k1, k2, k3, k4, if_false]
          rw [hq]
          exact ⟨h1, h2, h3, h4, h5, h6, h7⟩

theorem sameConfig_queries (L : StdLib) (e' : EasingCurve) (ts : List ℚ) :
    ∀ e : EasingCurve, sameConfig e e' →
      (queries L e ts).2 = ts.map (fun t => (e'.query L t).2) ∧
        sameConfig (queries L e ts).1 e' := by
  induction ts with
  | nil =>
    intro e h
    exact ⟨rfl, h⟩
  | cons t ts ih =>
    intro e h
    have hstep := ih (e.query L t).1 (sameConfig_query_state L h t)
    simp only [queries, List.map_cons]
    exact ⟨by rw [hstep.1, sameConfig_query_result L h t], hstep.2⟩

/-- C18: take a field list `v` stored by `SetValues` in an object, and any finite sequence
of query times evaluated on that object by the loop of `main`. Each value `Calculate`
returns equals the value a second object, set from the same `v` and never queried, returns
for that time; so the overwrite of `diff` inside `InOutQuad` changes no later result. The
members `lower`, `upper`, `mid`, `dur` and `curve_type` are left unchanged by every call of
`Calculate`. (For a kind `Calculate` does not know, it returns the member `result` as it
was before `SetValues`; the two objects are then taken with the same such value.) -/
theorem queries_history_free (L : StdLib) (ec0 ec0' ec ec' : EasingCurve) (v : List String)
    (ts : List ℚ)
    (hset : SetValues L ec0 v = some ec) (hset' : SetValues L ec0' v = some ec')
    (hk : ec.curve_type ∈ ["Linear", "InQuad", "OutQuad", "InOutQuad"] ∨
      ec0.result = ec0'.result) :
    (queries L ec ts).2 = ts.map (fun t => (ec'.query L t).2) ∧
    ((queries L ec ts).1.lower = ec.lower ∧ (queries L ec ts).1.upper = ec.upper ∧
      (queries L ec ts).1.mid = ec.mid ∧ (queries L ec ts).1.dur = ec.dur ∧
      (queries L ec ts).1.curve_type = ec.curve_type) ∧
    (∀ e : EasingCurve,
      (Calculate L e).1.lower = e.lower ∧ (Calculate L e).1.upper = e.upper ∧
      (Calculate L e).1.mid = e.mid ∧ (Calculate L e).1.dur = e.dur ∧
      (Calculate L e).1.curve_type = e.curve_type) := by
  have hsame : sameConfig ec ec' := SetValues_sameConfig hset hset' hk
  have hrefl : ∀ e : EasingCurve, sameConfig e e := fun e =>
    ⟨rfl, rfl, rfl, rfl, rfl, Or.inr rfl, Or.inr rfl⟩
  have hfresh := sameConfig_queries L ec' ts ec hsame
  have hself := (sameConfig_queries L ec ts ec (hrefl ec)).2
  refine ⟨hfresh.1, ?_, ?_⟩
  · obtain ⟨h1, h2, h3, h4, h5, _, _⟩ := hself
    exact ⟨h1, h2, h3, h4, h5⟩
  · intro e
    have hq : e.query L e.time = Calculate L e := rfl
    obtain ⟨h1, h2, h3, h4, h5, _, _⟩ := sameConfig_query_state L (hrefl e) e.time
    rw [hq] at h1 h2 h3 h4 h5
    exact ⟨h1, h2, h3, h4, h5⟩

/-- Witness of C18: InOutQuad with bounds 100 and 200 and duration 1, queried at the times
0.2, 0.7 and 0.4 in a row on one object, prints 108, 182 and 132. -/
theorem queries_history_free_witness :
    (queries decimal (example100 "InOutQuad") [1 / 5, 7 / 10, 2 / 5]).2 = [108, 182, 132] := by
  have h := (queries_history_free decimal blank blank (example100 "InOutQuad")
    (example100 "InOutQuad") _ [1 / 5, 7 / 10, 2 / 5] (SetValues_example100 "InOutQuad")
    (SetValues_example100 "InOutQuad") (Or.inr rfl)).1
  have q1 : ((example100 "InOutQuad").query decimal (1 / 5)).2 = 108 := by
    rw [query_InOutQuad_left decimal _ (1 / 5) rfl (by norm_num [example100])]
    norm_num [example100, toInt]
  have q2 : ((example100 "InOutQuad").query decimal (7 / 10)).2 = 182 := by
    rw [query_InOutQuad_right decimal _ (7 / 10) rfl (by norm_num [example100])]
    norm_num [example100, toInt]
  have q3 : ((example100 "InOutQuad").query decimal (2 / 5)).2 = 132 := by
    rw [query_InOutQuad_left decimal _ (2 / 5) rfl (by norm_num [example100])]
    norm_num [example100, toInt]
  rw [h]
  simp only [List.map_cons, List.map_nil, q1, q2, q3]

/-! ## The order of the three single-segment curves -/

/-- C20: take the same three fields after the kind, stored by `SetValues` with
`upper > lower >= 0` and `dur > 0`, and a time with `0 <= t <= dur`. The results are
ordered: InQuad's is at most Linear's, and Linear's is at most OutQuad's. -/
theorem quads_ordered (L : StdLib) (ec0 ecL ecI ecO : EasingCurve)
    (fs : List String) (t : ℚ)
    (hL : SetValues L ec0 ("Linear" :: fs) = some ecL)
    (hI : SetValues L ec0 ("InQuad" :: fs) = some ecI)
    (hO : SetValues L ec0 ("OutQuad" :: fs) = some ecO)
    (_hlo : 0 ≤ ecL.lower) (hup : ecL.lower < ecL.upper) (hd : 0 < ecL.dur)
    (ht0 : 0 ≤ t) (ht : t ≤ ecL.dur) :
    (ecI.query L t).2 ≤ (ecL.query L t).2 ∧ (ecL.query L t).2 ≤ (ecO.query L t).2 := by
  have hI' := SetValues_kind hL "InQuad"
  have hO' := SetValues_kind hL "OutQuad"
  rw [hI] at hI'
  rw [hO] at hO'
  simp only [Option.some.injEq] at hI' hO'
  subst hI' hO'
  have hdiff : (ecL.diff : ℚ) = (ecL.upper : ℚ) - ecL.lower := by
    rw [(SetValues_fields hL).1]
    push_cast
    rfl
  have hD : (0 : ℚ) ≤ (ecL.upper : ℚ) - ecL.lower := by
    exact_mod_cast le_of_lt (sub_pos.mpr hup)
  have hu0 : 0 ≤ t / ecL.dur := div_nonneg ht0 (le_of_lt hd)
  have hu1 : t / ecL.dur ≤ 1 := (div_le_one hd).mpr ht
  have hgap : 0 ≤ ((ecL.upper : ℚ) - ecL.lower) * ((t / ecL.dur) * (1 - t / ecL.dur)) :=
    mul_nonneg hD (mul_nonneg hu0 (sub_nonneg.mpr hu1))
  rw [query_Linear L ecL t (SetValues_curve_type hL), query_InQuad L _ t rfl,
    query_OutQuad L _ t rfl]
  constructor
  · apply toInt_mono
    simp only [hdiff]
    nlinarith [hgap]
  · apply toInt_mono
    simp only [hdiff]
    nlinarith [hgap]

/-- Witness of C20: bounds 100 and 200, duration 1, time 0.2 (the results are 104, 120 and
136). -/
theorem quads_ordered_witness :
    ((example100 "InQuad").query decimal (1 / 5)).2 ≤
        ((example100 "Linear").query decimal (1 / 5)).2 ∧
      ((example100 "Linear").query decimal (1 / 5)).2 ≤
        ((example100 "OutQuad").query decimal (1 / 5)).2 :=
  quads_ordered decimal blank (example100 "Linear") (example100 "InQuad")
    (example100 "OutQuad") ["100", "200", "1"] (1 / 5)
    (SetValues_example100 "Linear") (SetValues_example100 "InQuad")
    (SetValues_example100 "OutQuad")
    (by simp [example100]) (by simp [example100]) (by norm_num [example100])
    (by norm_num) (by norm_num [example100])

/-! ## The quadratic curves against Linear, away from the endpoints -/

theorem toInt_lt_of_add_one_le {x y : ℚ} (hx : 0 ≤ x) (h : x + 1 ≤ y) :
    toInt x < toInt y := by
  have hy : 0 ≤ y := by linarith
  unfold toInt
  rw [if_pos hx, if_pos hy]
  have h1 : ⌊x⌋ + 1 ≤ ⌊y⌋ := by
    rw [← Int.floor_add_one]
    exact Int.floor_mono h
  omega

/-- C8 as amended: take the same three fields after the kind, stored by `SetValues` with
`upper > lower >= 0` and `dur > 0`, and a time strictly between 0 and `dur` at which
`(upper - lower) * (t / dur) * (1 - t / dur)` is at least 2. Then the InQuad result differs
from the Linear result (it is smaller) and the OutQuad result differs from the Linear
result (it is larger). The product is the distance of either quadratic value from the
linear one before truncation; where it is small the truncated results can coincide. -/
theorem quads_differ_when_apart (L : StdLib) (ec0 ecL ecI ecO : EasingCurve)
    (fs : List String) (t : ℚ)
    (hL : SetValues L ec0 ("Linear" :: fs) = some ecL)
    (hI : SetValues L ec0 ("InQuad" :: fs) = some ecI)
    (hO : SetValues L ec0 ("OutQuad" :: fs) = some ecO)
    (hlo : 0 ≤ ecL.lower) (hup : ecL.lower < ecL.upper) (hd : 0 < ecL.dur)
    (ht0 : 0 < t) (ht : t < ecL.dur)
    (hgap : 2 ≤ ((ecL.upper : ℚ) - ecL.lower) * (t / ecL.dur) * (1 - t / ecL.dur)) :
    (ecI.query L t).2 < (ecL.query L t).2 ∧ (ecL.query L t).2 < (ecO.query L t).2 := by
  have hI' := SetValues_kind hL "InQuad"
  have hO' := SetValues_kind hL "OutQuad"
  rw [hI] at hI'
  rw [hO] at hO'
  simp only [Option.some.injEq] at hI' hO'
  subst hI' hO'
  have hdiff : (ecL.diff : ℚ) = (ecL.upper : ℚ) - ecL.lower := by
    rw [(SetValues_fields hL).1]
    push_cast
    rfl
  have hD : (0 : ℚ) < (ecL.upper : ℚ) - ecL.lower := by
    exact_mod_cast sub_pos.mpr hup
  have hlo' : (0 : ℚ) ≤ ecL.lower := by exact_mod_cast hlo
  have hu0 : 0 < t / ecL.dur := div_pos ht0 hd
  have hu1 : t / ecL.dur < 1 := (div_lt_one hd).mpr ht
  have hsq : 0 ≤ ((ecL.upper : ℚ) - ecL.lower) * (t / ecL.dur) ^ 2 :=
    mul_nonneg (le_of_lt hD) (sq_nonneg _)
  have hlin : 0 ≤ ((ecL.upper : ℚ) - ecL.lower) * (t / ecL.dur) :=
    mul_nonneg (le_of_lt hD) (le_of_lt hu0)
  rw [query_Linear L ecL t (SetValues_curve_type hL), query_InQuad L _ t rfl,
    query_OutQuad L _ t rfl]
  constructor
  · apply toInt_lt_of_add_one_le
    · simp only [hdiff]
      linarith
    · simp only [hdiff]
      nlinarith [hgap]
  · apply toInt_lt_of_add_one_le
    · rw [hdiff]
      linarith
    · simp only [hdiff]
      nlinarith [hgap]

/-- Witness of C8 as amended: bounds 100 and 200, duration 1, time 0.2; the product is 16
and the results are 104, 120 and 136. -/
theorem quads_differ_when_apart_witness :
    ((example100 "InQuad").query decimal (1 / 5)).2 <
        ((example100 "Linear").query decimal (1 / 5)).2 ∧
      ((example100 "Linear").query decimal (1 / 5)).2 <
        ((example100 "OutQuad").query decimal (1 / 5)).2 :=
  quads_differ_when_apart decimal blank (example100 "Linear") (example100 "InQuad")
    (example100 "OutQuad") ["100", "200", "1"] (1 / 5)
    (SetValues_example100 "Linear") (SetValues_example100 "InQuad")
    (SetValues_example100 "OutQuad")
    (by simp [example100]) (by simp [example100]) (by norm_num [example100])
    (by norm_num) (by norm_num [example100]) (by norm_num [example100])

end EasingCurve

/-! ## Fields whose two conversions disagree -/

theorem decimalStod_neg_exp : decimalStod "-0.1e1" = some (.finite (((-1 : Int) : ℚ))) := by
  have h : scanNumeral "-0.1e1" = some ⟨true, 1, 1, 1⟩ := by decide
  rw [decimalStod_of_scan (by decide) h]
  simp [Numeral.value]

theorem decimalStoi_neg_exp : decimalStoi "-0.1e1" = some 0 := by decide

theorem decimalStod_1e2 : decimalStod "1e2" = some (.finite (((100 : Int) : ℚ))) := by
  have h : scanNumeral "1e2" = some ⟨false, 1, 0, 2⟩ := by decide
  rw [decimalStod_of_scan (by decide) h]
  simp [Numeral.value]
  norm_num

theorem decimalStoi_1e2 : decimalStoi "1e2" = some 1 := by decide

theorem decimalStod_50 : decimalStod "50" = some (.finite (((50 : Int) : ℚ))) := by
  have h : scanNumeral "50" = some ⟨false, 50, 0, 0⟩ := by decide
  rw [decimalStod_of_scan (by decide) h]
  simp [Numeral.value]

theorem decimalStoi_50 : decimalStoi "50" = some 50 := by decide

theorem decimalStod_abc : decimalStod "abc" = none := by
  have hs : scanSpecial "abc" = none := by decide
  have h : scanNumeral "abc" = none := by decide
  simp [decimalStod, hs, h]

/-- C9, evaluated at three failing inputs. The lower field `-0.1e1` is the negative integer
-1 for `stod` and 0 for `stoi`: the list is accepted, not rejected as LowerNegative. The
lower field `1e2` is 100 for `stod` and 1 for `stoi`: with the upper field `50` the list is
accepted, not rejected as UpperNotGreaterThanLower. With the lower field `99999999999`
(an integer, not negative) and the upper field `abc` (no number) the first check to fail is
the one on the upper field, but `stoi` of the lower field throws and nothing is reported. -/
theorem ValidInput_conversions_disagree :
    (decimal.stod "-0.1e1" = some (.finite (-1)) ∧
      ValidInput decimal ["Linear", "-0.1e1", "200", "1"] = .accepted) ∧
    (decimal.stod "1e2" = some (.finite 100) ∧ decimal.stod "50" = some (.finite 50) ∧
      ValidInput decimal ["Linear", "1e2", "50", "1"] = .accepted) ∧
    (decimal.stod "abc" = none ∧
      ValidInput decimal ["Linear", "99999999999", "abc", "1"] = .uncaught) := by
  have hd1 : ValidDbl decimal "1" = true := by
    have h : decimal.stod "1" = some (.finite 1) := decimalStod_1
    simp [ValidDbl, h]
  have hi1 : decimal.stoi "1" = some 1 := decimalStoi_1
  refine ⟨⟨?_, ?_⟩, ⟨?_, ?_, ?_⟩, ⟨decimalStod_abc, ?_⟩⟩
  · have h := decimalStod_neg_exp
    simp only [Int.cast_neg, Int.cast_one] at h
    exact h
  · have hv : ValidInt decimal "-0.1e1" = true :=
      ValidInt_of_stod_intCast decimal "-0.1e1" (-1) decimalStod_neg_exp
    have hi : decimal.stoi "-0.1e1" = some 0 := decimalStoi_neg_exp
    have h200 : decimal.stoi "200" = some 200 := decimalStoi_200
    simp [ValidInput, hv, hi, ValidInt_decimal_200, h200, hd1, hi1]
  · have h := decimalStod_1e2
    simp only [Int.cast_ofNat] at h
    exact h
  · have h := decimalStod_50
    simp only [Int.cast_ofNat] at h
    exact h
  · have hv : ValidInt decimal "1e2" = true :=
      ValidInt_of_stod_intCast decimal "1e2" 100 decimalStod_1e2
    have hv2 : ValidInt decimal "50" = true :=
      ValidInt_of_stod_intCast decimal "50" 50 decimalStod_50
    have hi : decimal.stoi "1e2" = some 1 := decimalStoi_1e2
    have h50 : decimal.stoi "50" = some 50 := decimalStoi_50
    simp [ValidInput, hv, hv2, hi, h50, hd1, hi1]
  · have hi : decimal.stoi "99999999999" = none := decimalStoi_big
    simp [ValidInput, ValidInt_decimal_big, hi]

end Easing
